import Mathlib

/-!
Shallow embedding of `src/restful.py`, a file-driven snapshot-testing
harness for REST endpoints (class `Test`).  Files are modelled as a store
from paths to file contents; a path is the pair (directory, file name),
mirroring `os.path.join(dir, fn)`.  JSON values are modelled by an
inductive `JVal`; `json.loads` succeeds exactly on contents recorded as
parsed JSON.  The HTTP transport (`requests`) is an external collaborator,
modelled as a deterministic function from the request data to a raw
response whose body may fail to decode under the configured encoding.
-/

namespace Restful

/-- JSON values as produced by `json.loads` (restricted to the shapes the
program manipulates: null, integers, strings, objects). -/
inductive JVal where
  | null
  | num (n : Int)
  | str (s : String)
  | obj (fields : List (String × JVal))

/-- Contents of one file: either plain text, or text that is valid JSON,
recorded as its parse.  `text` also stands for malformed-JSON bytes when a
file is fed to `json.loads`. -/
inductive FileData where
  | text (s : String)
  | json (v : JVal)

/-- A path: directory and file name, as built by `os.path.join`. -/
abbrev FPath := String × String

/-- The file system visible to the program: a partial map from paths to
file contents (`none` = file does not exist). -/
def Store := FPath → Option FileData

def Store.set (st : Store) (p : FPath) (d : FileData) : Store :=
  fun q => if q = p then some d else st q

def Store.del (st : Store) (p : FPath) : Store :=
  fun q => if q = p then none else st q

/-- `os.path.exists`. -/
def Store.pathExists (st : Store) (p : FPath) : Bool := (st p).isSome

/-- The empty file system. -/
def Store.empty : Store := fun _ => none

/-- The four configured directories of `Test.__init__`. -/
structure Config where
  responses : String
  samples : String
  requests : String
  errors : String
deriving DecidableEq, Repr

/-- Uncaught Python exceptions the program can raise. -/
inductive RunError where
  | fileNotFound (p : FPath)
  | jsonDecodeError
  | keyError (k : String)
  | typeErrorNotADict
  | attributeError
  | unicodeDecodeError
deriving DecidableEq, Repr

/-- Kinds of `OSError` that `os.remove` can raise. -/
inductive OSErrorKind where
  | fileNotFound
  | permissionDenied
  | isADirectory
deriving DecidableEq, Repr

/-! ### String helpers (Python semantics) -/

/-- Does `hay` start with `needle` (char lists)? -/
def charsStartWith : List Char → List Char → Bool
  | _, [] => true
  | [], _ :: _ => false
  | a :: as, b :: bs => a == b && charsStartWith as bs

/-- Helper for Python `needle in hay`. -/
def charsContain (needle : List Char) : List Char → Bool
  | [] => needle.isEmpty
  | c :: rest => charsStartWith (c :: rest) needle || charsContain needle rest

/-- Python `needle in hay` for strings: substring containment. -/
def strContainsSub (hay needle : String) : Bool :=
  charsContain needle.data hay.data

/-- Python `s.rstrip(chars)`: remove trailing characters drawn from the
character set `chars` — NOT removal of `chars` as a suffix. -/
def rstrip (s chars : String) : String :=
  String.mk ((s.data.reverse.dropWhile fun c => chars.data.contains c).reverse)

/-- Does `s` end with `sfx`? -/
def strEndsWith (s sfx : String) : Bool :=
  charsStartWith s.data.reverse sfx.data.reverse

/-- Lexicographic strict order on char lists (Python string `<`,
comparing code points). -/
def charsLt : List Char → List Char → Bool
  | [], [] => false
  | [], _ :: _ => true
  | _ :: _, [] => false
  | a :: as, b :: bs => a < b || (a == b && charsLt as bs)

/-- Python string `<`. -/
def strLt (s t : String) : Bool := charsLt s.data t.data

/-- Insertion step of `sortStrings`. -/
def insertStr (a : String) : List String → List String
  | [] => [a]
  | b :: bs => if strLt b a then b :: insertStr a bs else a :: b :: bs

/-- Python `list.sort()` on strings (lexicographic ascending). -/
def sortStrings : List String → List String
  | [] => []
  | a :: as => insertStr a (sortStrings as)

/-- Insertion step of `sortPairs`. -/
def insertPair (a : String × JVal) : List (String × JVal) → List (String × JVal)
  | [] => [a]
  | b :: bs => if strLt b.1 a.1 then b :: insertPair a bs else a :: b :: bs

/-- Sort object fields by key (`json.dumps(..., sort_keys=True)`). -/
def sortPairs : List (String × JVal) → List (String × JVal)
  | [] => []
  | a :: as => insertPair a (sortPairs as)

/-! ### JSON operations -/

mutual
/-- Serialized text of a JSON value (the text read back when a file whose
contents were recorded as parsed JSON is opened as plain text). -/
def dumpsStr : JVal → String
  | .null => "null"
  | .num n => toString n
  | .str s => "\"" ++ s ++ "\""
  | .obj fs => "\x7b" ++ dumpsFields fs ++ "\x7d"

/-- Serialized text of an object's field list. -/
def dumpsFields : List (String × JVal) → String
  | [] => ""
  | (k, v) :: rest =>
    "\"" ++ k ++ "\": " ++ dumpsStr v ++
      (if rest.isEmpty then "" else ", " ++ dumpsFields rest)
end

/-- The text content of a file as returned by `_read_from_file`. -/
def FileData.asText : FileData → String
  | .text s => s
  | .json v => dumpsStr v

/-- `json.loads` applied to a file's contents: succeeds exactly on
contents recorded as valid JSON. -/
def loads : FileData → Except RunError JVal
  | .json v => .ok v
  | .text _ => .error .jsonDecodeError

/-- Raw field lookup in a parsed JSON object; duplicate keys behave as in
Python (`json.loads` keeps the last value). -/
def lookupField (fs : List (String × JVal)) (k : String) : Option JVal :=
  fs.foldl (fun acc p => if p.1 == k then some p.2 else acc) none

/-- Python `j.get(k)`: `AttributeError` unless `j` is an object; JSON
`null` parses to Python `None`, so a null value is indistinguishable from
an absent key. -/
def dictGet : JVal → String → Except RunError (Option JVal)
  | .obj fs, k =>
    match lookupField fs k with
    | some .null => .ok none
    | v => .ok v
  | _, _ => .error .attributeError

/-- Python `j[k]`: `TypeError` unless `j` is an object; `KeyError` if the
key is absent. -/
def dictIndex : JVal → String → Except RunError JVal
  | .obj fs, k =>
    match lookupField fs k with
    | some v => .ok v
    | none => .error (.keyError k)
  | _, _ => .error .typeErrorNotADict

/-- Python `dict.items()` on an object parsed from JSON with possibly
repeated keys: first position wins for order, last value wins. -/
def dictItems : List (String × JVal) → List (String × JVal)
  | [] => []
  | (k, v) :: rest =>
    (k, rest.foldl (fun acc p => if p.1 == k then p.2 else acc) v)
      :: dictItems (rest.filter fun p => !(p.1 == k))
termination_by l => l.length
decreasing_by
  simp only [List.length_cons]
  exact Nat.lt_succ_of_le (List.length_filter_le _ _)

/-- Lookup in the captured-response header mapping
(`res.headers.get(header)`); the mapping is dict-like, modelled as an
association list with last value winning.  (Case folding of header names
is the HTTP library's concern and is outside this model: the mapping is
taken as the abstract key→value view the library exposes.) -/
def headersGet (hs : List (String × String)) (k : String) : Option String :=
  hs.foldl (fun acc p => if p.1 == k then some p.2 else acc) none

/-- Python equality `sample_status == status` between a parsed JSON value
and an `int` status code. -/
def pyEqInt : JVal → Int → Bool
  | .num n, m => n == m
  | _, _ => false

/-- Python equality `headers.get(header) == value` between an optional
actual header value and the stored JSON value (`None` ↔ JSON null). -/
def pyEqHdr : Option String → JVal → Bool
  | some s, .str t => s == t
  | none, .null => true
  | _, _ => false

/-! ### The embedded `Test` methods -/

/-- `force_dir` inside `Test.__init__`: create the directory if absent. -/
def forceDir (dirs : String → Bool) (d : String) : String → Bool :=
  if dirs d then dirs else fun x => if x = d then true else dirs x

/-- `Test.__init__` over the set of existing directories: the source
calls `force_dir` on the responses, samples and errors directories, and
only ASSIGNS `self._requests = requests_dir` without creating it. -/
def testInit (cfg : Config) (dirs : String → Bool) : String → Bool :=
  let dirs := forceDir dirs cfg.responses
  let dirs := forceDir dirs cfg.samples
  -- self._requests = requests_dir : no force_dir call in the source.
  let dirs := forceDir dirs cfg.errors
  dirs

/-- `os.remove`: removing a missing file raises `FileNotFoundError`; the
`faults` environment injects the other `OSError`s a real file system can
raise (e.g. permission denied) at given paths. -/
def osRemove (faults : FPath → Option OSErrorKind) (st : Store) (p : FPath) :
    Except OSErrorKind Store :=
  match faults p with
  | some e => .error e
  | none => if st.pathExists p then .ok (st.del p) else .error .fileNotFound

/-- `_read_from_file`: `open` raises `FileNotFoundError` when absent. -/
def readFromFile (st : Store) (p : FPath) : Except RunError String :=
  match st p with
  | some d => .ok d.asText
  | none => .error (.fileNotFound p)

/-- `_read_from_file` keeping the structured contents, for the places the
result is fed straight to `json.loads`. -/
def readData (st : Store) (p : FPath) : Except RunError FileData :=
  match st p with
  | some d => .ok d
  | none => .error (.fileNotFound p)

/-- `_save_to_file` with the default mode `"w"` (overwrite/create). -/
def saveToFile (st : Store) (p : FPath) (data : FileData) : Store :=
  st.set p data

/-- `_save_to_file` with mode `"a"`: append, creating if missing. -/
def appendToFile (st : Store) (p : FPath) (data : String) : Store :=
  match st p with
  | some d => st.set p (.text (d.asText ++ data))
  | none => st.set p (.text data)

/-- `_get_request_content`: empty string when the body file is absent. -/
def getRequestContent (cfg : Config) (st : Store) (name : String) : String :=
  let fn : FPath := (cfg.requests, name ++ ".cnt")
  if !(st.pathExists fn) then ""
  else
    match st fn with
    | some d => d.asText
    | none => ""

/-- A raw HTTP response: status, headers, and the body's decode result
under the configured encoding (`none`: `bytes.decode` raises
`UnicodeDecodeError`). -/
structure RawResponse where
  status : Int
  headers : List (String × String)
  content : Option String

/-- The HTTP transport (`requests.Session().send(...)`): a deterministic
function from the prepared request (method, URI, headers, body) to the
raw response.  Determinism is the "stable backend" assumption. -/
def Backend := JVal → JVal → Option JVal → String → RawResponse

/-- The status+headers record persisted for a capture:
`json.dumps({"Status": ..., "Headers": dict(res.headers)}, indent=4,
sort_keys=True)` — keys sorted at both levels. -/
def respMeta (res : RawResponse) : FileData :=
  .json (.obj [("Headers",
      .obj (sortPairs (res.headers.map fun p => (p.1, JVal.str p.2)))),
    ("Status", .num res.status)])

/-- `_send_request`: send, decode the body, persist the capture
(`<name>.cnt` body text and `<name>.snh` sorted-keys status+headers
record), and return status, headers and decoded body. -/
def sendRequest (b : Backend) (cfg : Config) (st : Store) (method uri : JVal)
    (headers : Option JVal) (content : String) (name : String) :
    Except RunError (Store × Int × List (String × String) × String) :=
  let res := b method uri headers content
  match res.content with
  | none => .error .unicodeDecodeError
  | some body =>
    let st := saveToFile st (cfg.responses, name ++ ".cnt") (.text body)
    let st := saveToFile st (cfg.responses, name ++ ".snh") (respMeta res)
    .ok (st, res.status, res.headers, body)

/-- `_check_sample_contents`: bootstrap the body sample when absent
(write the captured body, pass); otherwise compare the sample's text with
the freshly written capture file. -/
def checkSampleContents (cfg : Config) (st : Store) (name res : String) :
    Except RunError (Store × Bool) :=
  let sn : FPath := (cfg.samples, name ++ ".cnt")
  let rn : FPath := (cfg.responses, name ++ ".cnt")
  if !(st.pathExists sn) then
    .ok (saveToFile st sn (.text res), true)
  else do
    let s ← readFromFile st sn
    let r ← readFromFile st rn
    .ok (st, s == r)

/-- `_check_sample_headers`: vacuously true when no sample file exists;
otherwise parse the stored JSON, compare `Status` when present, and when
`Headers` is present require every stored header to appear with an equal
value in the actual headers. -/
def checkSampleHeaders (cfg : Config) (st : Store) (name : String)
    (status : Int) (headers : List (String × String)) : Except RunError Bool :=
  let sn : FPath := (cfg.samples, name ++ ".snh")
  if !(st.pathExists sn) then .ok true
  else do
    let d ← readData st sn
    let j ← loads d
    let sampleStatus ← dictGet j "Status"
    let sampleHeaders ← dictGet j "Headers"
    if (match sampleStatus with
        | some sv => !(pyEqInt sv status)
        | none => false) then
      .ok false
    else
      match sampleHeaders with
      | none => .ok true
      | some (.obj fs) =>
        .ok ((dictItems fs).all fun p => pyEqHdr (headersGet headers p.1) p.2)
      | some _ => .error .attributeError

/-- `_get_names`: `os.listdir`, `files.sort()`, then
`[file.rstrip(".prm") for file in files if ".prm" in file]`.
`listing` is the (arbitrarily ordered) directory listing. -/
def getNames (listing : List String) : List String :=
  let files := sortStrings listing
  (files.filter fun f => strContainsSub f ".prm").map fun f => rstrip f ".prm"

/-- `_parse_param`: read `<fn>.prm`, parse JSON, extract the required
`Method` and `URI` keys and the optional `Headers`. -/
def parseParam (cfg : Config) (st : Store) (fn : String) :
    Except RunError (JVal × JVal × Option JVal) := do
  let d ← readData st (cfg.requests, fn ++ ".prm")
  let j ← loads d
  let method ← dictIndex j "Method"
  let uri ← dictIndex j "URI"
  let headers ← dictGet j "Headers"
  .ok (method, uri, headers)

/-- The console line printed for a failing case (`_write_err`). -/
def failMsg (name : String) : String := "Test #" ++ name ++ " - FAIL\n"

/-- The console line printed for a passing case (`print` in `run`). -/
def okMsg (name : String) : String := "Test #" ++ name ++ " - OK\n"

/-- `_write_err`: print the FAIL line and append it to `errors.txt`. -/
def writeErr (cfg : Config) (st : Store) (name : String) : Store × String :=
  let msg := failMsg name
  (appendToFile st (cfg.errors, "errors.txt") msg, msg)

/-- `_remove_errors`: `try: os.remove(...)` with `except OSError: pass` —
EVERY `OSError` (not only file-not-found) is swallowed. -/
def removeErrors (faults : FPath → Option OSErrorKind) (cfg : Config)
    (st : Store) : Store :=
  match osRemove faults st (cfg.errors, "errors.txt") with
  | .ok st2 => st2
  | .error _ => st

/-- One iteration of the loop in `Test.run` for case `name`: the uncaught
exception (if any), the updated file system, and the console output
printed while processing this case. -/
def runCase (b : Backend) (cfg : Config) (st : Store) (name : String) :
    Option RunError × Store × List String :=
  match parseParam cfg st name with
  | .error e => (some e, st, [])
  | .ok (method, uri, headers) =>
    let reqContent := getRequestContent cfg st name
    match sendRequest b cfg st method uri headers reqContent name with
    | .error e => (some e, st, [])
    | .ok (st, status, resHeaders, resContent) =>
      match checkSampleHeaders cfg st name status resHeaders with
      | .error e => (some e, st, [])
      | .ok false =>
        let (st, msg) := writeErr cfg st name
        (none, st, [msg])
      | .ok true =>
        match checkSampleContents cfg st name resContent with
        | .error e => (some e, st, [])
        | .ok (st, false) =>
          let (st, msg) := writeErr cfg st name
          (none, st, [msg])
        | .ok (st, true) => (none, st, [okMsg name])

/-- The loop of `Test.run` over the discovered case names; an uncaught
exception aborts the loop, keeping the output printed so far. -/
def runCases (b : Backend) (cfg : Config) :
    List String → Store → Option RunError × Store × List String
  | [], st => (none, st, [])
  | n :: ns, st =>
    match runCase b cfg st n with
    | (some e, st2, out) => (some e, st2, out)
    | (none, st2, out) =>
      match runCases b cfg ns st2 with
      | (e, st3, out2) => (e, st3, out ++ out2)

/-- `Test.run`: reset the error log, then process every discovered case.
`listing` is the `os.listdir` view of the requests directory. -/
def run (b : Backend) (faults : FPath → Option OSErrorKind) (cfg : Config)
    (listing : List String) (st : Store) :
    Option RunError × Store × List String :=
  runCases b cfg (getNames listing) (removeErrors faults cfg st)

/-- The error log's path. -/
def errPath (cfg : Config) : FPath := (cfg.errors, "errors.txt")

/-! ### Basic store lemmas -/

theorem Store.set_self (st : Store) (p : FPath) (d : FileData) :
    (st.set p d) p = some d := by
  simp [Store.set]

theorem Store.set_ne (st : Store) (p : FPath) (d : FileData) (q : FPath)
    (h : q ≠ p) : (st.set p d) q = st q := by
  simp [Store.set, h]

theorem Store.del_self (st : Store) (p : FPath) : (st.del p) p = none := by
  simp [Store.del]

theorem Store.del_ne (st : Store) (p q : FPath) (h : q ≠ p) :
    (st.del p) q = st q := by
  simp [Store.del, h]

/-! ### Concrete fixtures used by witnesses and counterexamples -/

/-- A configuration with four distinct directories. -/
def exCfg : Config := ⟨"res", "sam", "req", "err"⟩

/-- A fault-free file system environment for `os.remove`. -/
def noFaults : FPath → Option OSErrorKind := fun _ => none

/-- An environment where deleting the error log raises a permission
error. -/
def permFaults : FPath → Option OSErrorKind :=
  fun p => if p = ("err", "errors.txt") then some .permissionDenied else none

/-- A stable backend: always status 200, one header, body `"hello"`. -/
def exBackend : Backend := fun _ _ _ _ => ⟨200, [("A", "x")], some "hello"⟩

/-- A well-formed request spec for case `t`. -/
def exSpec : FileData :=
  .json (.obj [("Method", .str "GET"), ("URI", .str "u")])

/-- A store holding only the spec of case `t`: a completely fresh case. -/
def stFresh : Store := fun p =>
  if p = ("req", "t.prm") then some exSpec else none

/-- Case `t` with a status+headers sample demanding status 404 (the
backend returns 200) and no body sample. -/
def stHdrFail : Store := fun p =>
  if p = ("req", "t.prm") then some exSpec
  else if p = ("sam", "t.snh") then some (.json (.obj [("Status", .num 404)]))
  else none

/-- Case `t` with a stored body sample differing from the backend's
stable body. -/
def stBodyMismatch : Store := fun p =>
  if p = ("req", "t.prm") then some exSpec
  else if p = ("sam", "t.cnt") then some (.text "old")
  else none

/-- A store holding only a pre-existing error log. -/
def stLog : Store := fun p =>
  if p = ("err", "errors.txt") then some (.text "old") else none

/-- Case `t` plus a case `bad` whose spec file is not valid JSON, plus a
case `u`. -/
def stC8 : Store := fun p =>
  if p = ("req", "t.prm") then some exSpec
  else if p = ("req", "bad.prm") then some (.text "not json")
  else if p = ("req", "u.prm") then some exSpec
  else none

/-- Case `t` with a status+headers sample whose only key is a null
`Status`. -/
def stNullSnh : Store := fun p =>
  if p = ("req", "t.prm") then some exSpec
  else if p = ("sam", "t.snh") then some (.json (.obj [("Status", JVal.null)]))
  else none

/-- A requests directory holding a single well-formed spec file named
`spam.prm`. -/
def stSpam : Store := fun p =>
  if p = ("req", "spam.prm") then some exSpec else none

/-! ### Directory creation (`__init__`) -/

theorem forceDir_makes (ds : String → Bool) (d : String) :
    forceDir ds d d = true := by
  unfold forceDir
  split
  · assumption
  · simp

theorem forceDir_keeps (ds : String → Bool) (d x : String)
    (h : ds x = true) : forceDir ds d x = true := by
  unfold forceDir
  split
  · exact h
  · by_cases hx : x = d <;> simp [hx, h]

theorem forceDir_other (ds : String → Bool) (d x : String) (h : x ≠ d) :
    forceDir ds d x = ds x := by
  unfold forceDir
  split
  · rfl
  · simp [h]

theorem forceDir_of_true (ds : String → Bool) (d : String)
    (h : ds d = true) : forceDir ds d = ds := by
  unfold forceDir
  simp [h]

/-- Claim C7, counterexample: starting from a file system with no
directories at all, initialization does NOT create the requests
directory (the source assigns `self._requests` without calling
`force_dir`), so "creates each of the four configured directories" fails
at the requests directory. -/
theorem c7_counterexample :
    testInit exCfg (fun _ => false) exCfg.requests = false := by decide

/-- Claim C7 (amended): initialization creates the responses, samples
and errors directories if absent — but not the requests directory, which
is left untouched — and doing so is idempotent. -/
theorem c7_init_amended (cfg : Config) (dirs : String → Bool) :
    testInit cfg dirs cfg.responses = true ∧
    testInit cfg dirs cfg.samples = true ∧
    testInit cfg dirs cfg.errors = true ∧
    testInit cfg (testInit cfg dirs) = testInit cfg dirs ∧
    ∀ d, d ≠ cfg.responses → d ≠ cfg.samples → d ≠ cfg.errors →
      testInit cfg dirs d = dirs d := by
  have hr : testInit cfg dirs cfg.responses = true :=
    forceDir_keeps _ _ _ (forceDir_keeps _ _ _ (forceDir_makes _ _))
  have hs : testInit cfg dirs cfg.samples = true :=
    forceDir_keeps _ _ _ (forceDir_makes _ _)
  have he : testInit cfg dirs cfg.errors = true := forceDir_makes _ _
  refine ⟨hr, hs, he, ?_, ?_⟩
  · have e1 : testInit cfg (testInit cfg dirs) =
        forceDir (forceDir (forceDir (testInit cfg dirs) cfg.responses)
          cfg.samples) cfg.errors := rfl
    rw [e1, forceDir_of_true _ _ hr, forceDir_of_true _ _ hs,
      forceDir_of_true _ _ he]
  · intro d h1 h2 h3
    show forceDir (forceDir (forceDir dirs cfg.responses) cfg.samples)
      cfg.errors d = dirs d
    rw [forceDir_other _ _ _ h3, forceDir_other _ _ _ h2,
      forceDir_other _ _ _ h1]

/-- Witness for C7's amended claim at a concrete configuration. -/
theorem c7_witness :
    testInit exCfg (fun _ => false) "res" = true ∧
    testInit exCfg (fun _ => false) "sam" = true ∧
    testInit exCfg (fun _ => false) "err" = true ∧
    testInit exCfg (testInit exCfg (fun _ => false)) =
      testInit exCfg (fun _ => false) ∧
    testInit exCfg (fun _ => false) "other" = false := by
  obtain ⟨h1, h2, h3, h4, h5⟩ := c7_init_amended exCfg (fun _ => false)
  exact ⟨h1, h2, h3, h4,
    (h5 "other" (by decide) (by decide) (by decide)).trans rfl⟩

/-! ### Error-log reset (`_remove_errors`) -/

/-- Claim C6, counterexample: with a permission error injected at the
error log's path, the run is NOT aborted — `except OSError: pass`
swallows the failure, the run completes normally and the old log
survives. -/
theorem c6_counterexample :
    (run exBackend permFaults exCfg [] stLog).1 = none ∧
    (run exBackend permFaults exCfg [] stLog).2.1 ("err", "errors.txt") =
      some (.text "old") :=
  ⟨rfl, rfl⟩

/-- Claim C6 (amended): at the start of every run the error log is
deleted if present; a "not found" condition is treated as success, and
any other deletion failure (e.g. permission denied) is likewise silently
swallowed — the run continues with the old log left in place. -/
theorem c6_remove_errors_amended (faults : FPath → Option OSErrorKind)
    (cfg : Config) (st : Store) :
    (faults (errPath cfg) = none →
      removeErrors faults cfg st = st.del (errPath cfg)) ∧
    (∀ e, faults (errPath cfg) = some e → removeErrors faults cfg st = st) := by
  constructor
  · intro h
    have h' : faults (cfg.errors, "errors.txt") = none := h
    by_cases hex : (st (cfg.errors, "errors.txt")).isSome
    · simp [removeErrors, osRemove, h', Store.pathExists, hex, errPath]
    · have hnone : st (cfg.errors, "errors.txt") = none := by
        cases hv : st (cfg.errors, "errors.txt") with
        | none => rfl
        | some d => rw [hv] at hex; simp at hex
      simp [removeErrors, osRemove, h', Store.pathExists, hnone, errPath]
      funext q
      by_cases hq : q = (cfg.errors, "errors.txt")
      · rw [hq, Store.del_self, hnone]
      · rw [Store.del_ne _ _ _ hq]
  · intro e h
    have h' : faults (cfg.errors, "errors.txt") = some e := h
    simp [removeErrors, osRemove, h']

/-- Witness for C6's amended claim: deletion succeeds without faults,
and a permission fault is swallowed leaving the store unchanged. -/
theorem c6_witness :
    removeErrors noFaults exCfg stLog = Store.del stLog (errPath exCfg) ∧
    removeErrors permFaults exCfg stLog = stLog :=
  ⟨(c6_remove_errors_amended noFaults exCfg stLog).1 rfl,
   (c6_remove_errors_amended permFaults exCfg stLog).2 .permissionDenied rfl⟩

/-! ### Case discovery (`_get_names`) -/

/-- Claim C4, code bug: the sorted-discovery example of the spec does
work, but `file.rstrip(".prm")` strips the trailing CHARACTER SET
`{'.','p','r','m'}` rather than the suffix, so the spec file `spam.prm`
is discovered as case `spa`; `run` then reads `spa.prm`, which does not
exist, and crashes with `FileNotFoundError` — contradicting the code's
own round trip (`_parse_param` opens `<name> + ".prm"`). -/
theorem c4_rstrip_code_bug :
    getNames ["b.prm", "a.prm", "c.prm"] = ["a", "b", "c"] ∧
    getNames ["spam.prm"] = ["spa"] ∧
    (run exBackend noFaults exCfg ["spam.prm"] stSpam).1 =
      some (.fileNotFound ("req", "spa.prm")) ∧
    (run exBackend noFaults exCfg ["spam.prm"] stSpam).2.2 = [] :=
  ⟨by decide, by decide, rfl, rfl⟩

/-! ### The header/status check (`_check_sample_headers`) -/

/-- Claim C10: a stored status+headers sample whose parse yields neither
a `Status` nor a `Headers` constraint (keys absent or null) makes the
header check succeed, exactly like a missing sample file. -/
theorem c10_empty_sample_passes (cfg : Config) (st : Store) (name : String)
    (status : Int) (headers : List (String × String))
    (fs : List (String × JVal))
    (hfile : st (cfg.samples, name ++ ".snh") = some (.json (.obj fs)))
    (hst : lookupField fs "Status" = none ∨
      lookupField fs "Status" = some .null)
    (hhd : lookupField fs "Headers" = none ∨
      lookupField fs "Headers" = some .null) :
    checkSampleHeaders cfg st name status headers = .ok true := by
  have hget1 : dictGet (.obj fs) "Status" = .ok none := by
    cases hst with
    | inl h => simp [dictGet, h]
    | inr h => simp [dictGet, h]
  have hget2 : dictGet (.obj fs) "Headers" = .ok none := by
    cases hhd with
    | inl h => simp [dictGet, h]
    | inr h => simp [dictGet, h]
  simp [checkSampleHeaders, Store.pathExists, hfile, readData, loads,
    hget1, hget2, Bind.bind, Except.bind]

/-- Witness for C10 at a sample file holding `{"Status": null}`. -/
theorem c10_witness :
    checkSampleHeaders exCfg stNullSnh "t" 500 [] = .ok true :=
  c10_empty_sample_passes exCfg stNullSnh "t" 500 []
    [("Status", JVal.null)] rfl (Or.inr rfl) (Or.inl rfl)

/-- A status+headers sample file of the documented schema (spec §6):
optional integer `Status`, optional string-valued `Headers` mapping. -/
def snhSample (sSt : Option Int) (sHd : Option (List (String × String))) :
    JVal :=
  .obj ((match sSt with
         | some n => [("Status", JVal.num n)]
         | none => []) ++
        (match sHd with
         | some l => [("Headers",
             JVal.obj (l.map fun p => (p.1, JVal.str p.2)))]
         | none => []))

theorem foldl_no_match (v : JVal) (k : String) (rest : List (String × JVal))
    (h : ∀ p ∈ rest, p.1 ≠ k) :
    rest.foldl (fun acc p => if p.1 == k then p.2 else acc) v = v := by
  induction rest with
  | nil => rfl
  | cons a t ih =>
    have ha : (a.1 == k) = false := beq_eq_false_iff_ne.mpr (h a (by simp))
    simp only [List.foldl_cons, ha, if_neg, Bool.false_eq_true,
      not_false_iff, if_false]
    exact ih fun p hp => h p (by simp [hp])

theorem filter_no_match (k : String) (rest : List (String × JVal))
    (h : ∀ p ∈ rest, p.1 ≠ k) :
    rest.filter (fun p => !(p.1 == k)) = rest := by
  rw [List.filter_eq_self]
  intro p hp
  simp [beq_eq_false_iff_ne.mpr (h p hp)]

/-- On an object with no repeated keys, `dict.items()` is the field list
itself. -/
theorem dictItems_nodup (fs : List (String × JVal))
    (h : (fs.map Prod.fst).Nodup) : dictItems fs = fs := by
  induction fs with
  | nil => simp [dictItems]
  | cons a t ih =>
    obtain ⟨k, v⟩ := a
    have h2 := h
    rw [List.map_cons, List.nodup_cons] at h2
    have hk : ∀ p ∈ t, p.1 ≠ k := by
      intro p hp hc
      exact h2.1 (List.mem_map.mpr ⟨p, hp, hc⟩)
    rw [dictItems, foldl_no_match _ _ _ hk, filter_no_match _ _ hk, ih h2.2]

theorem all_check_iff (headers : List (String × String))
    (l : List (String × String)) :
    ((l.map fun p => (p.1, JVal.str p.2)).all
        fun p => pyEqHdr (headersGet headers p.1) p.2) = true ↔
      ∀ p ∈ l, headersGet headers p.1 = some p.2 := by
  rw [List.all_eq_true]
  constructor
  · intro h p hp
    have hq := h (p.1, .str p.2) (List.mem_map.mpr ⟨p, hp, rfl⟩)
    cases hv : headersGet headers p.1 with
    | none => rw [hv] at hq; simp [pyEqHdr] at hq
    | some s =>
      rw [hv] at hq
      simp only [pyEqHdr, beq_iff_eq] at hq
      rw [hq]
  · intro h q hq
    obtain ⟨p, hp, rfl⟩ := List.mem_map.mp hq
    rw [h p hp]
    simp [pyEqHdr]

/-- Claim C2: for a stored status+headers sample of the documented
schema, the header check succeeds iff the stored status (when present)
equals the actual status and every stored header is present in the
actual headers with an equal value; extra actual headers are ignored and
a `Status`-only sample passes when the status matches. -/
theorem c2_header_check_iff (cfg : Config) (st : Store) (name : String)
    (status : Int) (headers : List (String × String))
    (sSt : Option Int) (sHd : Option (List (String × String)))
    (hfile : st (cfg.samples, name ++ ".snh") =
      some (.json (snhSample sSt sHd)))
    (hnodup : ∀ l, sHd = some l → (l.map Prod.fst).Nodup) :
    checkSampleHeaders cfg st name status headers = .ok true ↔
      ((∀ n, sSt = some n → n = status) ∧
       (∀ l, sHd = some l → ∀ p ∈ l, headersGet headers p.1 = some p.2)) := by
  have hS : dictGet (snhSample sSt sHd) "Status" =
      .ok (sSt.map fun n => JVal.num n) := by
    cases sSt <;> cases sHd <;>
      simp [snhSample, dictGet, lookupField,
        show (("Headers" : String) == "Status") = false from by decide]
  have hH : dictGet (snhSample sSt sHd) "Headers" =
      .ok (sHd.map fun l => JVal.obj (l.map fun p => (p.1, JVal.str p.2))) := by
    cases sSt <;> cases sHd <;>
      simp [snhSample, dictGet, lookupField,
        show (("Status" : String) == "Headers") = false from by decide]
  have hrw : checkSampleHeaders cfg st name status headers =
      (if (match sSt.map (fun n => JVal.num n) with
           | some sv => !(pyEqInt sv status)
           | none => false) then (.ok false : Except RunError Bool)
       else
         match sHd.map (fun l => JVal.obj (l.map fun p => (p.1, JVal.str p.2))) with
         | none => .ok true
         | some (.obj fs) =>
           .ok ((dictItems fs).all fun p => pyEqHdr (headersGet headers p.1) p.2)
         | some _ => .error .attributeError) := by
    simp [checkSampleHeaders, Store.pathExists, hfile, readData, loads,
      hS, hH, Bind.bind, Except.bind]
  rw [hrw]
  cases sSt with
  | some n =>
    by_cases hn : n = status
    · have hc : (match (some n).map (fun n => JVal.num n) with
          | some sv => !(pyEqInt sv status)
          | none => false) = false := by
        simp [pyEqInt, hn]
      rw [hc]
      simp only [Bool.false_eq_true, if_false]
      cases sHd with
      | none =>
        simp only [Option.map_none']
        constructor
        · intro _
          refine ⟨fun n2 hn2 => ?_, fun l hl => ?_⟩
          · cases hn2; exact hn
          · cases hl
        · intro _
          trivial
      | some l =>
        have hnd := hnodup l rfl
        have hmapnd : ((l.map fun p => (p.1, JVal.str p.2)).map Prod.fst).Nodup := by
          rw [List.map_map]
          exact hnd
        simp only [Option.map_some']
        rw [dictItems_nodup _ hmapnd]
        constructor
        · intro h
          have hb : ((l.map fun p => (p.1, JVal.str p.2)).all
              fun p => pyEqHdr (headersGet headers p.1) p.2) = true :=
            Except.ok.inj h
          refine ⟨fun n2 hn2 => ?_, fun l2 hl2 => ?_⟩
          · cases hn2; exact hn
          · cases hl2; exact (all_check_iff headers l).mp hb
        · intro h
          have hb := (all_check_iff headers l).mpr (h.2 l rfl)
          rw [hb]
    · have hc : (match (some n).map (fun n => JVal.num n) with
          | some sv => !(pyEqInt sv status)
          | none => false) = true := by
        simp [pyEqInt, hn]
      rw [hc]
      simp only [if_true]
      constructor
      · intro h
        exact absurd (Except.ok.inj h) (by simp)
      · intro h
        exact absurd (h.1 n rfl) hn
  | none =>
    simp only [Option.map_none', Bool.false_eq_true, if_false]
    cases sHd with
    | none =>
      simp only [Option.map_none']
      constructor
      · intro _
        refine ⟨fun n2 hn2 => ?_, fun l hl => ?_⟩
        · cases hn2
        · cases hl
      · intro _
        trivial
    | some l =>
      have hnd := hnodup l rfl
      have hmapnd : ((l.map fun p => (p.1, JVal.str p.2)).map Prod.fst).Nodup := by
        rw [List.map_map]
        exact hnd
      simp only [Option.map_some']
      rw [dictItems_nodup _ hmapnd]
      constructor
      · intro h
        refine ⟨fun n2 hn2 => ?_, fun l2 hl2 => ?_⟩
        · cases hn2
        · cases hl2
          exact (all_check_iff headers l).mp (Except.ok.inj h)
      · intro h
        rw [(all_check_iff headers l).mpr (h.2 l rfl)]

/-! ### Frame and preservation lemmas about one case -/

theorem ne_of_dir (p : FPath) (d x : String) (h : p.1 ≠ d) : p ≠ (d, x) :=
  fun hq => h (by rw [hq])

theorem appendToFile_ne (st : Store) (p : FPath) (data : String) (q : FPath)
    (h : q ≠ p) : appendToFile st p data q = st q := by
  unfold appendToFile
  cases st p <;> simp [Store.set, h]

theorem appendToFile_self (st : Store) (p : FPath) (data : String) :
    appendToFile st p data p =
      some (.text ((match st p with
        | some d => d.asText
        | none => "") ++ data)) := by
  unfold appendToFile
  cases st p <;> simp [Store.set_self]

/-- `_send_request` writes only inside the responses directory. -/
theorem sendRequest_preserves (b : Backend) (cfg : Config) (st : Store)
    (m u : JVal) (hdrs : Option JVal) (ct n : String) {st2 : Store}
    {status : Int} {rh : List (String × String)} {body : String}
    (hs : sendRequest b cfg st m u hdrs ct n = .ok (st2, status, rh, body)) :
    ∀ p : FPath, p.1 ≠ cfg.responses → st2 p = st p := by
  simp only [sendRequest] at hs
  cases hc : (b m u hdrs ct).content with
  | none => rw [hc] at hs; exact absurd hs (by simp)
  | some c =>
    rw [hc] at hs
    simp only [Except.ok.injEq, Prod.mk.injEq] at hs
    intro p hp
    rw [← hs.1]
    unfold saveToFile
    rw [Store.set_ne _ _ _ _ (ne_of_dir p _ _ hp),
      Store.set_ne _ _ _ _ (ne_of_dir p _ _ hp)]

/-- A failed body comparison leaves the store untouched. -/
theorem checkSampleContents_false_eq (cfg : Config) (st : Store)
    (name res : String) {st2 : Store}
    (h : checkSampleContents cfg st name res = .ok (st2, false)) :
    st2 = st := by
  unfold checkSampleContents at h
  cases hsn : st (cfg.samples, name ++ ".cnt") with
  | none => simp [Store.pathExists, hsn] at h
  | some d =>
    simp only [Store.pathExists, hsn, Option.isSome_some, Bool.not_true,
      Bool.false_eq_true, if_false] at h
    cases hrn : st (cfg.responses, name ++ ".cnt") with
    | none => simp [readFromFile, hsn, hrn, Bind.bind, Except.bind] at h
    | some d2 =>
      simp only [readFromFile, hsn, hrn, Bind.bind, Except.bind,
        Except.ok.injEq, Prod.mk.injEq] at h
      exact h.1.symm

theorem okMsg_ne_failMsg (n : String) : okMsg n ≠ failMsg n := by
  intro h
  have h2 := congrArg String.length h
  simp only [okMsg, failMsg, String.length_append] at h2
  rw [show (" - OK\n" : String).length = 6 from rfl,
    show (" - FAIL\n" : String).length = 8 from rfl] at h2
  omega

/-! ### Claim C1: bootstrap behaviour of a fresh case -/

/-- Claim C1, counterexample: a case with NO pre-existing body sample but
a mismatching status sample is reported as FAIL and no body sample is
written, refuting the claim's unconditional "reports that case as
passing" for every case with no body sample. -/
theorem c1_counterexample :
    stHdrFail ("sam", "t.cnt") = none ∧
    (run exBackend noFaults exCfg ["t.prm"] stHdrFail).2.2 = [failMsg "t"] ∧
    (run exBackend noFaults exCfg ["t.prm"] stHdrFail).2.1 ("sam", "t.cnt") =
      none :=
  ⟨rfl, rfl, rfl⟩

/-- Claim C1 (amended): for a case with no pre-existing body sample WHOSE
HEADER/STATUS CHECK PASSES, one run writes the captured body as the new
sample and reports the case as passing. -/
theorem c1_bootstrap_amended (b : Backend) (cfg : Config) (st : Store)
    (name : String) {m u : JVal} {hdrs : Option JVal} {st2 : Store}
    {status : Int} {rh : List (String × String)} {body : String}
    (hne : cfg.responses ≠ cfg.samples)
    (hp : parseParam cfg st name = .ok (m, u, hdrs))
    (hsend : sendRequest b cfg st m u hdrs (getRequestContent cfg st name)
      name = .ok (st2, status, rh, body))
    (hsamp : st (cfg.samples, name ++ ".cnt") = none)
    (hh : checkSampleHeaders cfg st2 name status rh = .ok true) :
    (runCase b cfg st name).1 = none ∧
    (runCase b cfg st name).2.2 = [okMsg name] ∧
    (runCase b cfg st name).2.1 (cfg.samples, name ++ ".cnt") =
      some (.text body) := by
  have hsamp2 : st2 (cfg.samples, name ++ ".cnt") = none := by
    rw [sendRequest_preserves b cfg st m u hdrs _ name hsend _
      (Ne.symm hne)]
    exact hsamp
  have hcsc : checkSampleContents cfg st2 name body =
      .ok (Store.set st2 (cfg.samples, name ++ ".cnt") (.text body), true) := by
    unfold checkSampleContents
    simp [Store.pathExists, hsamp2, saveToFile]
  unfold runCase
  simp [hp, hsend, hh, hcsc, Store.set_self]

/-- Witness for C1's amended claim: the fresh case `t` bootstraps its
sample from the captured body `"hello"` and passes. -/
theorem c1_witness :
    (runCase exBackend exCfg stFresh "t").1 = none ∧
    (runCase exBackend exCfg stFresh "t").2.2 = [okMsg "t"] ∧
    (runCase exBackend exCfg stFresh "t").2.1 ("sam", "t.cnt") =
      some (.text "hello") :=
  c1_bootstrap_amended exBackend exCfg stFresh "t" (by decide) rfl rfl rfl rfl

/-! ### Claim C3: failing cases never touch the samples directory -/

/-- Claim C3: whenever a case is recorded as failing (header/status
failure or body mismatch), every file of the samples directory is left
exactly as it was: a header failure short-circuits before the body check
(no bootstrap), and a body mismatch never rewrites the sample. -/
theorem c3_failing_case_frame (b : Backend) (cfg : Config) (st : Store)
    (name : String) {st2 : Store}
    (hs : cfg.samples ≠ cfg.responses) (he : cfg.samples ≠ cfg.errors)
    (hrun : runCase b cfg st name = (none, st2, [failMsg name])) :
    ∀ fn, st2 (cfg.samples, fn) = st (cfg.samples, fn) := by
  intro fn
  unfold runCase at hrun
  cases hp : parseParam cfg st name with
  | error e =>
    rw [hp] at hrun
    exact absurd (congrArg Prod.fst hrun) (by simp)
  | ok t =>
    obtain ⟨m, u, hdrs⟩ := t
    rw [hp] at hrun
    simp only at hrun
    cases hsend : sendRequest b cfg st m u hdrs
        (getRequestContent cfg st name) name with
    | error e =>
      rw [hsend] at hrun
      exact absurd (congrArg Prod.fst hrun) (by simp)
    | ok r =>
      obtain ⟨stA, status, rh, body⟩ := r
      rw [hsend] at hrun
      simp only at hrun
      have hsam : stA (cfg.samples, fn) = st (cfg.samples, fn) :=
        sendRequest_preserves b cfg st m u hdrs _ name hsend _ hs
      cases hch : checkSampleHeaders cfg stA name status rh with
      | error e =>
        rw [hch] at hrun
        exact absurd (congrArg Prod.fst hrun) (by simp)
      | ok bv =>
        rw [hch] at hrun
        cases bv with
        | false =>
          simp only [writeErr] at hrun
          have hst2 : st2 =
              appendToFile stA (cfg.errors, "errors.txt") (failMsg name) :=
            (congrArg (fun x => x.2.1) hrun).symm
          rw [hst2, appendToFile_ne _ _ _ _ (ne_of_dir _ _ _ he)]
          exact hsam
        | true =>
          simp only at hrun
          cases hcc : checkSampleContents cfg stA name body with
          | error e =>
            rw [hcc] at hrun
            exact absurd (congrArg Prod.fst hrun) (by simp)
          | ok r2 =>
            obtain ⟨stB, bv2⟩ := r2
            rw [hcc] at hrun
            cases bv2 with
            | true =>
              simp only at hrun
              have hout := congrArg (fun x => x.2.2) hrun
              simp only at hout
              exact absurd (List.cons.inj hout).1 (okMsg_ne_failMsg name)
            | false =>
              have hBA : stB = stA :=
                checkSampleContents_false_eq cfg stA name body hcc
              simp only [writeErr] at hrun
              have hst2 : st2 =
                  appendToFile stB (cfg.errors, "errors.txt") (failMsg name) :=
                (congrArg (fun x => x.2.1) hrun).symm
              rw [hst2, appendToFile_ne _ _ _ _ (ne_of_dir _ _ _ he), hBA]
              exact hsam

/-- Witness for C3 at the concrete header-failing case `t`: its body
sample file is unchanged (still absent). -/
theorem c3_witness :
    (runCase exBackend exCfg stHdrFail "t").2.1 ("sam", "t.cnt") =
      stHdrFail ("sam", "t.cnt") :=
  c3_failing_case_frame exBackend exCfg stHdrFail "t" (by decide) (by decide)
    rfl "t.cnt"

/-! ### Claim C8: fatal errors abort the whole run -/

/-- Claim C8: when the processing of a case raises a fatal error
(malformed spec JSON, missing `Method`/`URI` key, body decode failure,
…), the error propagates out of the orchestrator: the run's result is
that error, no per-case recovery happens, and no case after it is
executed (the remaining names contribute nothing). -/
theorem c8_fatal_aborts (b : Backend) (cfg : Config) (ns1 : List String)
    (n : String) (ns2 : List String) (st : Store) {st1 : Store}
    {out1 : List String} {e : RunError} {st2 : Store} {out2 : List String}
    (h1 : runCases b cfg ns1 st = (none, st1, out1))
    (hbad : runCase b cfg st1 n = (some e, st2, out2)) :
    runCases b cfg (ns1 ++ n :: ns2) st = (some e, st2, out1 ++ out2) := by
  induction ns1 generalizing st out1 with
  | nil =>
    simp only [runCases, Prod.mk.injEq, true_and] at h1
    rw [← h1.1] at hbad
    simp [runCases, hbad, ← h1.2]
  | cons a t ih =>
    simp only [runCases, List.cons_append] at h1 ⊢
    cases hca : runCase b cfg st a with
    | mk e1 rest =>
      obtain ⟨stA, outA⟩ := rest
      rw [hca] at h1
      cases e1 with
      | some e2 =>
        simp only at h1
        exact absurd (congrArg Prod.fst h1) (by simp)
      | none =>
        simp only at h1 ⊢
        have he1 : (runCases b cfg t stA).1 = none := congrArg Prod.fst h1
        have hst1 : (runCases b cfg t stA).2.1 = st1 :=
          congrArg (fun x => x.2.1) h1
        have hout1 : outA ++ (runCases b cfg t stA).2.2 = out1 :=
          congrArg (fun x => x.2.2) h1
        have hre : runCases b cfg t stA =
            (none, st1, (runCases b cfg t stA).2.2) := by
          rw [← he1, ← hst1]
        have ih2 := ih stA hre
        simp only [List.append_eq]
        rw [ih2]
        simp [← hout1, List.append_assoc]

/-- Witness for C8: case `bad` has a spec file that is not valid JSON;
the run of `[t, bad, u]` stops at `bad` with a JSON decode error, with
only case `t`'s output produced. -/
theorem c8_witness :
    (runCases exBackend exCfg (["t"] ++ "bad" :: ["u"]) stC8).1 =
      some RunError.jsonDecodeError ∧
    (runCases exBackend exCfg (["t"] ++ "bad" :: ["u"]) stC8).2.2 =
      [okMsg "t"] := by
  have h := c8_fatal_aborts exBackend exCfg ["t"] "bad" ["u"] stC8 rfl rfl
  rw [h]
  exact ⟨rfl, rfl⟩

/-! ### Claim C5: the error log after a run -/

/-- Does a console line report a failure?  FAIL lines end in
`" - FAIL\n"`, OK lines end in `" - OK\n"`, so the suffix separates
them whatever the case name is. -/
def isFailLine (s : String) : Bool := strEndsWith s " - FAIL\n"

/-- Concatenation of a list of console lines. -/
def joinAll : List String → String
  | [] => ""
  | s :: rest => s ++ joinAll rest

/-- The text of an optional file (empty when absent), as seen by an
append in mode `"a"`. -/
def optText : Option FileData → String
  | some d => d.asText
  | none => ""

theorem append_empty_str (s : String) : s ++ "" = s := by
  apply String.ext
  rw [String.data_append]
  exact List.append_nil _

theorem empty_append_str (s : String) : "" ++ s = s := by
  apply String.ext
  rw [String.data_append]
  rfl

theorem charsStartWith_self_append (p rest : List Char) :
    charsStartWith (p ++ rest) p = true := by
  induction p with
  | nil => simp [charsStartWith]
  | cons c t ih => simp [charsStartWith, ih]

theorem strEndsWith_append (a sfx : String) :
    strEndsWith (a ++ sfx) sfx = true := by
  unfold strEndsWith
  rw [String.data_append, List.reverse_append]
  exact charsStartWith_self_append _ _

theorem isFailLine_failMsg (n : String) : isFailLine (failMsg n) = true :=
  strEndsWith_append ("Test #" ++ n) " - FAIL\n"

theorem isFailLine_okMsg (n : String) : isFailLine (okMsg n) = false := by
  show strEndsWith (("Test #" ++ n) ++ " - OK\n") " - FAIL\n" = false
  unfold strEndsWith
  rw [String.data_append, List.reverse_append]
  rw [show (" - OK\n" : String).data.reverse =
    ['\n', 'K', 'O', ' ', '-', ' '] from rfl]
  rw [show (" - FAIL\n" : String).data.reverse =
    ['\n', 'L', 'I', 'A', 'F', ' ', '-', ' '] from rfl]
  simp only [List.cons_append, charsStartWith]
  simp [show (('K' : Char) == 'L') = false from rfl]

theorem appendToFile_eq (st : Store) (p : FPath) (data : String) :
    appendToFile st p data = st.set p (.text (optText (st p) ++ data)) := by
  unfold appendToFile optText
  cases st p <;> simp

/-- `_check_sample_contents` writes only inside the samples directory. -/
theorem checkSampleContents_preserves (cfg : Config) (st : Store)
    (name res : String) {st2 : Store} {bv : Bool}
    (h : checkSampleContents cfg st name res = .ok (st2, bv)) :
    ∀ p : FPath, p.1 ≠ cfg.samples → st2 p = st p := by
  intro p hp
  unfold checkSampleContents at h
  cases hsn : st (cfg.samples, name ++ ".cnt") with
  | none =>
    simp only [Store.pathExists, hsn, Option.isSome_none, Bool.not_false,
      if_true, Except.ok.injEq, Prod.mk.injEq, saveToFile] at h
    rw [← h.1, Store.set_ne _ _ _ _ (ne_of_dir _ _ _ hp)]
  | some d =>
    simp only [Store.pathExists, hsn, Option.isSome_some, Bool.not_true,
      Bool.false_eq_true, if_false] at h
    cases hrn : st (cfg.responses, name ++ ".cnt") with
    | none => simp [readFromFile, hsn, hrn, Bind.bind, Except.bind] at h
    | some d2 =>
      simp only [readFromFile, hsn, hrn, Bind.bind, Except.bind,
        Except.ok.injEq, Prod.mk.injEq] at h
      rw [← h.1]

/-- How one case changes the error log: nothing unless the case fails,
in which case exactly its FAIL line is appended; and the console output
of one case is nothing (fatal error), an OK line, or a FAIL line. -/
theorem runCase_log (b : Backend) (cfg : Config) (st : Store) (n : String)
    (hr : cfg.errors ≠ cfg.responses) (hsm : cfg.errors ≠ cfg.samples)
    {e : Option RunError} {st2 : Store} {out : List String}
    (h : runCase b cfg st n = (e, st2, out)) :
    st2 (errPath cfg) =
      (if (out.filter isFailLine).isEmpty then st (errPath cfg)
       else some (.text (optText (st (errPath cfg)) ++ failMsg n))) ∧
    (out = [] ∨ out = [okMsg n] ∨ out = [failMsg n]) := by
  unfold runCase at h
  cases hp : parseParam cfg st n with
  | error er =>
    rw [hp] at h
    simp only [Prod.mk.injEq] at h
    rw [← h.2.1, ← h.2.2]
    simp
  | ok t =>
    obtain ⟨m, u, hdrs⟩ := t
    rw [hp] at h
    simp only at h
    cases hsend : sendRequest b cfg st m u hdrs
        (getRequestContent cfg st n) n with
    | error er =>
      rw [hsend] at h
      simp only [Prod.mk.injEq] at h
      rw [← h.2.1, ← h.2.2]
      simp
    | ok r =>
      obtain ⟨stA, status, rh, body⟩ := r
      rw [hsend] at h
      simp only at h
      have hA : stA (errPath cfg) = st (errPath cfg) :=
        sendRequest_preserves b cfg st m u hdrs _ n hsend _ hr
      cases hch : checkSampleHeaders cfg stA n status rh with
      | error er =>
        rw [hch] at h
        simp only [Prod.mk.injEq] at h
        rw [← h.2.1, ← h.2.2]
        simp [hA]
      | ok bv =>
        rw [hch] at h
        cases bv with
        | false =>
          simp only [writeErr, Prod.mk.injEq] at h
          rw [← h.2.1, ← h.2.2]
          rw [appendToFile_eq]
          have : (errPath cfg) = (cfg.errors, "errors.txt") := rfl
          rw [← this, Store.set_self, hA]
          simp [isFailLine_failMsg]
        | true =>
          simp only at h
          cases hcc : checkSampleContents cfg stA n body with
          | error er =>
            rw [hcc] at h
            simp only [Prod.mk.injEq] at h
            rw [← h.2.1, ← h.2.2]
            simp [hA]
          | ok r2 =>
            obtain ⟨stB, bv2⟩ := r2
            rw [hcc] at h
            have hB : stB (errPath cfg) = st (errPath cfg) := by
              rw [checkSampleContents_preserves cfg stA n body hcc _ hsm, hA]
            cases bv2 with
            | true =>
              simp only [Prod.mk.injEq] at h
              rw [← h.2.1, ← h.2.2]
              simp [hB, isFailLine_okMsg]
            | false =>
              simp only [writeErr, Prod.mk.injEq] at h
              rw [← h.2.1, ← h.2.2]
              rw [appendToFile_eq]
              have : (errPath cfg) = (cfg.errors, "errors.txt") := rfl
              rw [← this, Store.set_self, hB]
              simp [isFailLine_failMsg]

/-- How a whole case sequence changes the error log: untouched when no
case fails, otherwise exactly the FAIL lines of the failing cases are
appended in execution order. -/
theorem runCases_log (b : Backend) (cfg : Config)
    (hr : cfg.errors ≠ cfg.responses) (hsm : cfg.errors ≠ cfg.samples) :
    ∀ (ns : List String) (st : Store) {e : Option RunError} {st2 : Store}
      {out : List String},
    runCases b cfg ns st = (e, st2, out) →
    st2 (errPath cfg) =
      (if (out.filter isFailLine).isEmpty then st (errPath cfg)
       else some (.text (optText (st (errPath cfg)) ++
         joinAll (out.filter isFailLine)))) := by
  intro ns
  induction ns with
  | nil =>
    intro st e st2 out h
    simp only [runCases, Prod.mk.injEq] at h
    rw [← h.2.1, ← h.2.2]
    simp
  | cons n t ih =>
    intro st e st2 out h
    simp only [runCases] at h
    cases hca : runCase b cfg st n with
    | mk e1 rest =>
      obtain ⟨stA, outA⟩ := rest
      rw [hca] at h
      have hcl := runCase_log b cfg st n hr hsm hca
      cases e1 with
      | some e2 =>
        simp only [Prod.mk.injEq] at h
        obtain ⟨he, hst, hout⟩ := h
        subst he
        subst hst
        subst hout
        rcases hcl.2 with hsh | hsh | hsh <;> subst hsh
        · simpa using hcl.1
        · rw [hcl.1]
          simp [isFailLine_okMsg]
        · rw [hcl.1]
          simp [isFailLine_failMsg, joinAll, append_empty_str]
      | none =>
        simp only at h
        cases hrc : runCases b cfg t stA with
        | mk eR r2 =>
          obtain ⟨stR, outR⟩ := r2
          rw [hrc] at h
          simp only [Prod.mk.injEq] at h
          obtain ⟨he, hst, hout⟩ := h
          subst he
          subst hst
          subst hout
          have hihR := ih stA hrc
          rw [List.filter_append]
          rcases hcl.2 with hsh | hsh | hsh <;> subst hsh
          · simp only [List.filter_nil, List.nil_append]
            have hAlog : stA (errPath cfg) = st (errPath cfg) := by
              simpa using hcl.1
            rw [hihR, hAlog]
          · simp only [List.filter_cons, isFailLine_okMsg,
              Bool.false_eq_true, if_false, List.filter_nil, List.nil_append]
            have hAlog : stA (errPath cfg) = st (errPath cfg) := by
              simpa [isFailLine_okMsg] using hcl.1
            rw [hihR, hAlog]
          · simp only [List.filter_cons, isFailLine_failMsg, if_true,
              List.filter_nil, List.cons_append, List.nil_append]
            have hAlog : stA (errPath cfg) =
                some (.text (optText (st (errPath cfg)) ++ failMsg n)) := by
              simpa [isFailLine_failMsg] using hcl.1
            rw [hihR, hAlog]
            by_cases hfR : (outR.filter isFailLine).isEmpty
            · simp [hfR, List.isEmpty_iff.mp hfR, joinAll, append_empty_str]
            · simp [hfR, joinAll, optText, FileData.asText,
                String.append_assoc]

/-- `removeErrors` leaves no error log when deletion is not faulted. -/
theorem removeErrors_log_none (faults : FPath → Option OSErrorKind)
    (cfg : Config) (st : Store) (hf : faults (errPath cfg) = none) :
    removeErrors faults cfg st (errPath cfg) = none := by
  unfold removeErrors osRemove
  rw [show faults (cfg.errors, "errors.txt") = none from hf]
  cases hsn : st (cfg.errors, "errors.txt") with
  | none => simp [Store.pathExists, hsn, errPath]
  | some d => simp [Store.pathExists, hsn, errPath, Store.del_self]

/-- Claim C5: after a completed run (with deletion of the old log not
faulted), the error log is absent iff no case failed, and otherwise its
contents are exactly the FAIL line of each failing case, in execution
order. -/
theorem c5_error_log (b : Backend) (faults : FPath → Option OSErrorKind)
    (cfg : Config) (listing : List String) (st : Store) {st2 : Store}
    {out : List String}
    (hr : cfg.errors ≠ cfg.responses) (hsm : cfg.errors ≠ cfg.samples)
    (hf : faults (errPath cfg) = none)
    (hrun : run b faults cfg listing st = (none, st2, out)) :
    st2 (errPath cfg) =
      (if out.filter isFailLine = [] then none
       else some (.text (joinAll (out.filter isFailLine)))) := by
  unfold run at hrun
  have h0 : (removeErrors faults cfg st) (errPath cfg) = none :=
    removeErrors_log_none faults cfg st hf
  have h1 := runCases_log b cfg hr hsm (getNames listing)
    (removeErrors faults cfg st) hrun
  rw [h1, h0]
  by_cases hfl : out.filter isFailLine = []
  · simp [hfl]
  · have : (out.filter isFailLine).isEmpty = false := by
      cases hv : out.filter isFailLine with
      | nil => exact absurd hv hfl
      | cons a l => rfl
    simp [this, hfl, optText]

/-- Witness for C5 at the failing case `t`: the log holds exactly its
FAIL line. -/
theorem c5_witness :
    (run exBackend noFaults exCfg ["t.prm"] stHdrFail).2.1 (errPath exCfg) =
      (if ((run exBackend noFaults exCfg ["t.prm"] stHdrFail).2.2).filter
            isFailLine = [] then none
       else some (.text (joinAll
         (((run exBackend noFaults exCfg ["t.prm"] stHdrFail).2.2).filter
           isFailLine)))) :=
  c5_error_log exBackend noFaults exCfg ["t.prm"] stHdrFail
    (by decide) (by decide) rfl rfl

/-! ### Claim C9: running twice against a stable backend -/

/-- Pairwise distinctness of the four configured directories. -/
def DistinctDirs (cfg : Config) : Prop :=
  cfg.responses ≠ cfg.samples ∧ cfg.responses ≠ cfg.requests ∧
  cfg.responses ≠ cfg.errors ∧ cfg.samples ≠ cfg.requests ∧
  cfg.samples ≠ cfg.errors ∧ cfg.requests ≠ cfg.errors

/-- The decode result of the body the (stable) backend returns for case
`n`, as determined by the request area of `st`. -/
def expectedBody (b : Backend) (cfg : Config) (st : Store) (n : String) :
    Option String :=
  match parseParam cfg st n with
  | .error _ => none
  | .ok (m, u, h) => (b m u h (getRequestContent cfg st n)).content

theorem pair_ne_snd {d x y : String} (h : x ≠ y) :
    ((d, x) : FPath) ≠ (d, y) :=
  fun hq => h (congrArg Prod.snd hq)

theorem append_right_cancel_str {a b2 sfx : String}
    (h : a ++ sfx = b2 ++ sfx) : a = b2 := by
  apply String.ext
  have h2 := congrArg String.data h
  rw [String.data_append, String.data_append] at h2
  exact List.append_cancel_right h2

theorem cnt_ne_snh (a b2 : String) : a ++ ".cnt" ≠ b2 ++ ".snh" := by
  intro h
  have h2 := congrArg (fun s : String => s.data.reverse) h
  simp only [String.data_append, List.reverse_append] at h2
  rw [show (".cnt" : String).data.reverse = ['t', 'n', 'c', '.'] from rfl,
    show (".snh" : String).data.reverse = ['h', 'n', 's', '.'] from rfl] at h2
  simp only [List.cons_append] at h2
  exact absurd (List.cons.inj h2).1 (by decide)

theorem readData_congr {sa sb : Store} (p : FPath) (h : sb p = sa p) :
    readData sb p = readData sa p := by
  unfold readData
  rw [h]

theorem parseParam_congr (cfg : Config) {sa sb : Store}
    (h : ∀ fn, sb (cfg.requests, fn) = sa (cfg.requests, fn)) (n : String) :
    parseParam cfg sb n = parseParam cfg sa n := by
  unfold parseParam
  rw [readData_congr _ (h (n ++ ".prm"))]

theorem getRequestContent_congr (cfg : Config) {sa sb : Store}
    (h : ∀ fn, sb (cfg.requests, fn) = sa (cfg.requests, fn)) (n : String) :
    getRequestContent cfg sb n = getRequestContent cfg sa n := by
  simp only [getRequestContent, Store.pathExists, h]

theorem expectedBody_congr (b : Backend) (cfg : Config) {sa sb : Store}
    (h : ∀ fn, sb (cfg.requests, fn) = sa (cfg.requests, fn)) (n : String) :
    expectedBody b cfg sb n = expectedBody b cfg sa n := by
  unfold expectedBody
  rw [parseParam_congr cfg h n, getRequestContent_congr cfg h n]

theorem checkSampleHeaders_congr (cfg : Config) {sa sb : Store} (n : String)
    (status : Int) (headers : List (String × String))
    (h : sb (cfg.samples, n ++ ".snh") = sa (cfg.samples, n ++ ".snh")) :
    checkSampleHeaders cfg sb n status headers =
      checkSampleHeaders cfg sa n status headers := by
  simp only [checkSampleHeaders, Store.pathExists, readData]
  rw [h]

theorem removeErrors_ne (faults : FPath → Option OSErrorKind) (cfg : Config)
    (st : Store) (p : FPath) (hp : p ≠ errPath cfg) :
    removeErrors faults cfg st p = st p := by
  unfold removeErrors osRemove
  cases faults (cfg.errors, "errors.txt") with
  | some e => rfl
  | none =>
    by_cases hex : (st (cfg.errors, "errors.txt")).isSome
    · simp only [Store.pathExists, hex, if_true]
      exact Store.del_ne _ _ _ hp
    · simp [Store.pathExists, hex]

/-- The writes one case performs on the requests and samples areas: the
requests area and the `.snh` samples are untouched; a `.cnt` sample is
either untouched or bootstrapped from the backend's body for that
case. -/
theorem runCase_delta (b : Backend) (cfg : Config) (hd : DistinctDirs cfg)
    (st : Store) (n : String) :
    (∀ fn, (runCase b cfg st n).2.1 (cfg.requests, fn) =
      st (cfg.requests, fn)) ∧
    (∀ fn, (runCase b cfg st n).2.1 (cfg.samples, fn ++ ".snh") =
      st (cfg.samples, fn ++ ".snh")) ∧
    (∀ fn, (runCase b cfg st n).2.1 (cfg.samples, fn ++ ".cnt") =
        st (cfg.samples, fn ++ ".cnt") ∨
      (st (cfg.samples, fn ++ ".cnt") = none ∧
       ∃ c, expectedBody b cfg st fn = some c ∧
         (runCase b cfg st n).2.1 (cfg.samples, fn ++ ".cnt") =
           some (.text c))) := by
  obtain ⟨hRS, hRQ, hRE, hSQ, hSE, hQE⟩ := hd
  unfold runCase
  cases hp : parseParam cfg st n with
  | error e => exact ⟨fun _ => rfl, fun _ => rfl, fun _ => Or.inl rfl⟩
  | ok t =>
    obtain ⟨m, u, hdrs⟩ := t
    simp only
    cases hsend : sendRequest b cfg st m u hdrs
        (getRequestContent cfg st n) n with
    | error e => exact ⟨fun _ => rfl, fun _ => rfl, fun _ => Or.inl rfl⟩
    | ok r =>
      obtain ⟨stA, status, rh, body⟩ := r
      simp only
      have hA : ∀ p : FPath, p.1 ≠ cfg.responses → stA p = st p :=
        sendRequest_preserves b cfg st m u hdrs _ n hsend
      have hAq : ∀ fn, stA (cfg.requests, fn) = st (cfg.requests, fn) :=
        fun fn => hA _ (Ne.symm hRQ)
      have hAsnh : ∀ fn, stA (cfg.samples, fn ++ ".snh") =
          st (cfg.samples, fn ++ ".snh") := fun fn => hA _ (Ne.symm hRS)
      have hAcnt : ∀ fn, stA (cfg.samples, fn ++ ".cnt") =
          st (cfg.samples, fn ++ ".cnt") := fun fn => hA _ (Ne.symm hRS)
      cases hch : checkSampleHeaders cfg stA n status rh with
      | error e => exact ⟨hAq, hAsnh, fun fn => Or.inl (hAcnt fn)⟩
      | ok bv =>
        cases bv with
        | false =>
          simp only [writeErr, appendToFile_eq]
          refine ⟨fun fn => ?_, fun fn => ?_, fun fn => Or.inl ?_⟩
          · rw [Store.set_ne _ _ _ _ (ne_of_dir _ _ _ hQE)]
            exact hAq fn
          · rw [Store.set_ne _ _ _ _ (ne_of_dir _ _ _ hSE)]
            exact hAsnh fn
          · rw [Store.set_ne _ _ _ _ (ne_of_dir _ _ _ hSE)]
            exact hAcnt fn
        | true =>
          simp only
          cases hcc : checkSampleContents cfg stA n body with
          | error e => exact ⟨hAq, hAsnh, fun fn => Or.inl (hAcnt fn)⟩
          | ok r2 =>
            obtain ⟨stB, bv2⟩ := r2
            have hexp : expectedBody b cfg st n = some body := by
              unfold expectedBody
              rw [hp]
              simp only
              simp only [sendRequest] at hsend
              cases hct : (b m u hdrs (getRequestContent cfg st n)).content with
              | none => rw [hct] at hsend; exact absurd hsend (by simp)
              | some c2 =>
                rw [hct] at hsend
                simp only [Except.ok.injEq, Prod.mk.injEq] at hsend
                rw [hsend.2.2.2]
            cases bv2 with
            | false =>
              have hBA : stB = stA :=
                checkSampleContents_false_eq cfg stA n body hcc
              subst hBA
              simp only [writeErr, appendToFile_eq]
              refine ⟨fun fn => ?_, fun fn => ?_, fun fn => Or.inl ?_⟩
              · rw [Store.set_ne _ _ _ _ (ne_of_dir _ _ _ hQE)]
                exact hAq fn
              · rw [Store.set_ne _ _ _ _ (ne_of_dir _ _ _ hSE)]
                exact hAsnh fn
              · rw [Store.set_ne _ _ _ _ (ne_of_dir _ _ _ hSE)]
                exact hAcnt fn
            | true =>
              -- either a clean compare (store unchanged) or a bootstrap
              unfold checkSampleContents at hcc
              cases hsn : stA (cfg.samples, n ++ ".cnt") with
              | some d =>
                -- compare branch: stB = stA
                simp only [Store.pathExists, hsn, Option.isSome_some,
                  Bool.not_true, Bool.false_eq_true, if_false] at hcc
                cases hrn : stA (cfg.responses, n ++ ".cnt") with
                | none =>
                  simp [readFromFile, hsn, hrn, Bind.bind, Except.bind] at hcc
                | some d2 =>
                  simp only [readFromFile, hsn, hrn, Bind.bind, Except.bind,
                    Except.ok.injEq, Prod.mk.injEq] at hcc
                  have hBA : stB = stA := hcc.1.symm
                  subst hBA
                  exact ⟨hAq, hAsnh, fun fn => Or.inl (hAcnt fn)⟩
              | none =>
                -- bootstrap branch: stB = stA.set (samples, n.cnt) body
                simp only [Store.pathExists, hsn, Option.isSome_none,
                  Bool.not_false, if_true, Except.ok.injEq, Prod.mk.injEq,
                  saveToFile] at hcc
                have hB : stB =
                    Store.set stA (cfg.samples, n ++ ".cnt") (.text body) :=
                  hcc.1.symm
                subst hB
                simp only
                refine ⟨fun fn => ?_, fun fn => ?_, fun fn => ?_⟩
                · rw [Store.set_ne _ _ _ _ (ne_of_dir _ _ _ (Ne.symm hSQ))]
                  exact hAq fn
                · rw [Store.set_ne _ _ _ _
                    (pair_ne_snd (Ne.symm (cnt_ne_snh n fn)))]
                  exact hAsnh fn
                · by_cases hfn : fn ++ ".cnt" = n ++ ".cnt"
                  · have hfneq : fn = n := append_right_cancel_str hfn
                    subst hfneq
                    refine Or.inr ⟨?_, body, hexp, ?_⟩
                    · rw [← hAcnt fn]
                      exact hsn
                    · exact Store.set_self _ _ _
                  · rw [Store.set_ne _ _ _ _ (pair_ne_snd hfn)]
                    exact Or.inl (hAcnt fn)

/-- Relation between the file systems a first and a second run see at the
same point of the case list: identical request areas, identical
status+header samples, every body sample either identical or bootstrapped
by the first run from the (stable) backend's body for that case, and
identical error logs. -/
structure RunSim (b : Backend) (cfg : Config) (sa sb : Store) : Prop where
  req : ∀ fn, sb (cfg.requests, fn) = sa (cfg.requests, fn)
  snh : ∀ fn, sb (cfg.samples, fn ++ ".snh") = sa (cfg.samples, fn ++ ".snh")
  cnt : ∀ fn, sb (cfg.samples, fn ++ ".cnt") = sa (cfg.samples, fn ++ ".cnt") ∨
    (sa (cfg.samples, fn ++ ".cnt") = none ∧
     ∃ c, expectedBody b cfg sa fn = some c ∧
       sb (cfg.samples, fn ++ ".cnt") = some (.text c))
  log : sb (errPath cfg) = sa (errPath cfg)

theorem RunSim.set_responses (b : Backend) (cfg : Config) {sa sb : Store}
    (hRS : cfg.responses ≠ cfg.samples) (hRQ : cfg.responses ≠ cfg.requests)
    (hRE : cfg.responses ≠ cfg.errors) (h : RunSim b cfg sa sb)
    (x : String) (d : FileData) :
    RunSim b cfg (sa.set (cfg.responses, x) d) (sb.set (cfg.responses, x) d) := by
  have hreq2 : ∀ fn, (sa.set (cfg.responses, x) d) (cfg.requests, fn) =
      sa (cfg.requests, fn) :=
    fun fn => Store.set_ne _ _ _ _ (ne_of_dir _ _ _ (Ne.symm hRQ))
  refine ⟨fun fn => ?_, fun fn => ?_, fun fn => ?_, ?_⟩
  · rw [Store.set_ne _ _ _ _ (ne_of_dir _ _ _ (Ne.symm hRQ)), hreq2 fn]
    exact h.req fn
  · rw [Store.set_ne _ _ _ _ (ne_of_dir _ _ _ (Ne.symm hRS)),
      Store.set_ne _ _ _ _ (ne_of_dir _ _ _ (Ne.symm hRS))]
    exact h.snh fn
  · rw [Store.set_ne _ _ _ _ (ne_of_dir _ _ _ (Ne.symm hRS)),
      Store.set_ne _ _ _ _ (ne_of_dir _ _ _ (Ne.symm hRS))]
    rcases h.cnt fn with h1 | ⟨h1n, c, h1e, h1v⟩
    · exact Or.inl h1
    · refine Or.inr ⟨h1n, c, ?_, h1v⟩
      rw [expectedBody_congr b cfg hreq2 fn]
      exact h1e
  · show (sb.set (cfg.responses, x) d) (errPath cfg) =
      (sa.set (cfg.responses, x) d) (errPath cfg)
    rw [Store.set_ne _ _ _ _ (ne_of_dir _ _ _ (Ne.symm hRE)),
      Store.set_ne _ _ _ _ (ne_of_dir _ _ _ (Ne.symm hRE))]
    exact h.log

theorem RunSim.append_err (b : Backend) (cfg : Config) {sa sb : Store}
    (hSE : cfg.samples ≠ cfg.errors) (hQE : cfg.requests ≠ cfg.errors)
    (h : RunSim b cfg sa sb) (msg : String) :
    RunSim b cfg (appendToFile sa (cfg.errors, "errors.txt") msg)
      (appendToFile sb (cfg.errors, "errors.txt") msg) := by
  rw [appendToFile_eq, appendToFile_eq]
  have hlog : sb (cfg.errors, "errors.txt") = sa (cfg.errors, "errors.txt") :=
    h.log
  rw [hlog]
  have hreq2 : ∀ fn, (sa.set (cfg.errors, "errors.txt")
      (.text (optText (sa (cfg.errors, "errors.txt")) ++ msg)))
        (cfg.requests, fn) = sa (cfg.requests, fn) :=
    fun fn => Store.set_ne _ _ _ _ (ne_of_dir _ _ _ hQE)
  refine ⟨fun fn => ?_, fun fn => ?_, fun fn => ?_, ?_⟩
  · rw [Store.set_ne _ _ _ _ (ne_of_dir _ _ _ hQE), hreq2 fn]
    exact h.req fn
  · rw [Store.set_ne _ _ _ _ (ne_of_dir _ _ _ hSE),
      Store.set_ne _ _ _ _ (ne_of_dir _ _ _ hSE)]
    exact h.snh fn
  · rw [Store.set_ne _ _ _ _ (ne_of_dir _ _ _ hSE),
      Store.set_ne _ _ _ _ (ne_of_dir _ _ _ hSE)]
    rcases h.cnt fn with h1 | ⟨h1n, c, h1e, h1v⟩
    · exact Or.inl h1
    · refine Or.inr ⟨h1n, c, ?_, h1v⟩
      rw [expectedBody_congr b cfg hreq2 fn]
      exact h1e
  · show _ = (sa.set (cfg.errors, "errors.txt") _) (errPath cfg)
    rw [show errPath cfg = (cfg.errors, "errors.txt") from rfl,
      Store.set_self, Store.set_self]

theorem RunSim.set_cnt_both (b : Backend) (cfg : Config) {sa sb : Store}
    (hSQ : cfg.samples ≠ cfg.requests) (hSE : cfg.samples ≠ cfg.errors)
    (h : RunSim b cfg sa sb) (n : String) (d : FileData) :
    RunSim b cfg (sa.set (cfg.samples, n ++ ".cnt") d)
      (sb.set (cfg.samples, n ++ ".cnt") d) := by
  have hreq2 : ∀ fn, (sa.set (cfg.samples, n ++ ".cnt") d)
      (cfg.requests, fn) = sa (cfg.requests, fn) :=
    fun fn => Store.set_ne _ _ _ _ (ne_of_dir _ _ _ (Ne.symm hSQ))
  refine ⟨fun fn => ?_, fun fn => ?_, fun fn => ?_, ?_⟩
  · rw [Store.set_ne _ _ _ _ (ne_of_dir _ _ _ (Ne.symm hSQ)), hreq2 fn]
    exact h.req fn
  · rw [Store.set_ne _ _ _ _ (pair_ne_snd (Ne.symm (cnt_ne_snh n fn))),
      Store.set_ne _ _ _ _ (pair_ne_snd (Ne.symm (cnt_ne_snh n fn)))]
    exact h.snh fn
  · by_cases hfn : fn ++ ".cnt" = n ++ ".cnt"
    · have hfneq : fn = n := append_right_cancel_str hfn
      subst hfneq
      rw [Store.set_self, Store.set_self]
      exact Or.inl rfl
    · rw [Store.set_ne _ _ _ _ (pair_ne_snd hfn),
        Store.set_ne _ _ _ _ (pair_ne_snd hfn)]
      rcases h.cnt fn with h1 | ⟨h1n, c, h1e, h1v⟩
      · exact Or.inl h1
      · refine Or.inr ⟨h1n, c, ?_, h1v⟩
        rw [expectedBody_congr b cfg hreq2 fn]
        exact h1e
  · show _ = (sa.set (cfg.samples, n ++ ".cnt") d) (errPath cfg)
    rw [Store.set_ne _ _ _ _ (ne_of_dir _ _ _ (Ne.symm hSE)),
      Store.set_ne _ _ _ _ (ne_of_dir _ _ _ (Ne.symm hSE))]
    exact h.log

theorem RunSim.bootstrap_left (b : Backend) (cfg : Config) {sa sb : Store}
    (hSQ : cfg.samples ≠ cfg.requests) (hSE : cfg.samples ≠ cfg.errors)
    (h : RunSim b cfg sa sb) (n : String) (c : String)
    (hsbc : sb (cfg.samples, n ++ ".cnt") = some (.text c)) :
    RunSim b cfg (sa.set (cfg.samples, n ++ ".cnt") (.text c)) sb := by
  have hreq2 : ∀ fn, (sa.set (cfg.samples, n ++ ".cnt") (.text c))
      (cfg.requests, fn) = sa (cfg.requests, fn) :=
    fun fn => Store.set_ne _ _ _ _ (ne_of_dir _ _ _ (Ne.symm hSQ))
  refine ⟨fun fn => ?_, fun fn => ?_, fun fn => ?_, ?_⟩
  · rw [hreq2 fn]
    exact h.req fn
  · rw [Store.set_ne _ _ _ _ (pair_ne_snd (Ne.symm (cnt_ne_snh n fn)))]
    exact h.snh fn
  · by_cases hfn : fn ++ ".cnt" = n ++ ".cnt"
    · have hfneq : fn = n := append_right_cancel_str hfn
      subst hfneq
      rw [Store.set_self, hsbc]
      exact Or.inl rfl
    · rw [Store.set_ne _ _ _ _ (pair_ne_snd hfn)]
      rcases h.cnt fn with h1 | ⟨h1n, c1, h1e, h1v⟩
      · exact Or.inl h1
      · refine Or.inr ⟨h1n, c1, ?_, h1v⟩
        rw [expectedBody_congr b cfg hreq2 fn]
        exact h1e
  · show sb (errPath cfg) = (sa.set (cfg.samples, n ++ ".cnt") (.text c))
      (errPath cfg)
    rw [Store.set_ne _ _ _ _ (ne_of_dir _ _ _ (Ne.symm hSE))]
    exact h.log

/-- The writes of a whole case sequence on the requests and samples
areas (composition of `runCase_delta`). -/
theorem runCases_delta (b : Backend) (cfg : Config) (hd : DistinctDirs cfg) :
    ∀ (ns : List String) (st : Store),
    (∀ fn, (runCases b cfg ns st).2.1 (cfg.requests, fn) =
      st (cfg.requests, fn)) ∧
    (∀ fn, (runCases b cfg ns st).2.1 (cfg.samples, fn ++ ".snh") =
      st (cfg.samples, fn ++ ".snh")) ∧
    (∀ fn, (runCases b cfg ns st).2.1 (cfg.samples, fn ++ ".cnt") =
        st (cfg.samples, fn ++ ".cnt") ∨
      (st (cfg.samples, fn ++ ".cnt") = none ∧
       ∃ c, expectedBody b cfg st fn = some c ∧
         (runCases b cfg ns st).2.1 (cfg.samples, fn ++ ".cnt") =
           some (.text c))) := by
  intro ns
  induction ns with
  | nil =>
    intro st
    exact ⟨fun _ => rfl, fun _ => rfl, fun _ => Or.inl rfl⟩
  | cons n t ih =>
    intro st
    obtain ⟨hq1, hs1, hc1⟩ := runCase_delta b cfg hd st n
    simp only [runCases]
    cases hca : runCase b cfg st n with
    | mk e1 r =>
      obtain ⟨stA, outA⟩ := r
      rw [hca] at hq1 hs1 hc1
      simp only at hq1 hs1 hc1
      cases e1 with
      | some e2 =>
        simp only
        exact ⟨hq1, hs1, hc1⟩
      | none =>
        obtain ⟨hq2, hs2, hc2⟩ := ih stA
        simp only
        refine ⟨fun fn => ?_, fun fn => ?_, fun fn => ?_⟩
        · rw [hq2 fn, hq1 fn]
        · rw [hs2 fn, hs1 fn]
        · have hreqA : ∀ fn2, stA (cfg.requests, fn2) = st (cfg.requests, fn2) :=
            hq1
          rcases hc2 fn with h2 | ⟨h2n, c, h2e, h2v⟩
          · rcases hc1 fn with h1 | ⟨h1n, c, h1e, h1v⟩
            · exact Or.inl (by rw [h2, h1])
            · exact Or.inr ⟨h1n, c, h1e, by rw [h2, h1v]⟩
          · rcases hc1 fn with h1 | ⟨h1n, c1, h1e, h1v⟩
            · refine Or.inr ⟨by rw [← h1]; exact h2n, c, ?_, h2v⟩
              rw [← expectedBody_congr b cfg hreqA fn]
              exact h2e
            · rw [h1v] at h2n
              exact absurd h2n (by simp)

/-- One case behaves identically in the two runs: same fatal error, same
console line, and the stores remain `RunSim`-related. -/
theorem runCase_bisim (b : Backend) (cfg : Config) (hd : DistinctDirs cfg)
    (n : String) (sa sb : Store) (h : RunSim b cfg sa sb) :
    (runCase b cfg sb n).1 = (runCase b cfg sa n).1 ∧
    (runCase b cfg sb n).2.2 = (runCase b cfg sa n).2.2 ∧
    RunSim b cfg (runCase b cfg sa n).2.1 (runCase b cfg sb n).2.1 := by
  obtain ⟨hRS, hRQ, hRE, hSQ, hSE, hQE⟩ := hd
  have hpp := parseParam_congr cfg h.req n
  have hgc := getRequestContent_congr cfg h.req n
  cases hp : parseParam cfg sa n with
  | error e =>
    have hpb : parseParam cfg sb n = .error e := by rw [hpp, hp]
    have ea : runCase b cfg sa n = (some e, sa, []) := by
      simp only [runCase, hp]
    have eb : runCase b cfg sb n = (some e, sb, []) := by
      simp only [runCase, hpb]
    rw [ea, eb]
    exact ⟨rfl, rfl, h⟩
  | ok t =>
    obtain ⟨m, u, hdrs⟩ := t
    have hpb : parseParam cfg sb n = .ok (m, u, hdrs) := by rw [hpp, hp]
    cases hct : (b m u hdrs (getRequestContent cfg sa n)).content with
    | none =>
      have esa : sendRequest b cfg sa m u hdrs (getRequestContent cfg sa n) n =
          .error .unicodeDecodeError := by
        simp only [sendRequest, hct]
      have esb : sendRequest b cfg sb m u hdrs (getRequestContent cfg sb n) n =
          .error .unicodeDecodeError := by
        rw [hgc]
        simp only [sendRequest, hct]
      have ea : runCase b cfg sa n = (some .unicodeDecodeError, sa, []) := by
        simp only [runCase, hp, esa]
      have eb : runCase b cfg sb n = (some .unicodeDecodeError, sb, []) := by
        simp only [runCase, hpb, esb]
      rw [ea, eb]
      exact ⟨rfl, rfl, h⟩
    | some body =>
      have esa : sendRequest b cfg sa m u hdrs (getRequestContent cfg sa n) n =
          .ok ((sa.set (cfg.responses, n ++ ".cnt") (.text body)).set
                (cfg.responses, n ++ ".snh")
                (respMeta (b m u hdrs (getRequestContent cfg sa n))),
               (b m u hdrs (getRequestContent cfg sa n)).status,
               (b m u hdrs (getRequestContent cfg sa n)).headers, body) := by
        simp only [sendRequest, hct, saveToFile]
      have esb : sendRequest b cfg sb m u hdrs (getRequestContent cfg sb n) n =
          .ok ((sb.set (cfg.responses, n ++ ".cnt") (.text body)).set
                (cfg.responses, n ++ ".snh")
                (respMeta (b m u hdrs (getRequestContent cfg sa n))),
               (b m u hdrs (getRequestContent cfg sa n)).status,
               (b m u hdrs (getRequestContent cfg sa n)).headers, body) := by
        rw [hgc]
        simp only [sendRequest, hct, saveToFile]
      have hsim2 : RunSim b cfg
          ((sa.set (cfg.responses, n ++ ".cnt") (.text body)).set
            (cfg.responses, n ++ ".snh")
            (respMeta (b m u hdrs (getRequestContent cfg sa n))))
          ((sb.set (cfg.responses, n ++ ".cnt") (.text body)).set
            (cfg.responses, n ++ ".snh")
            (respMeta (b m u hdrs (getRequestContent cfg sa n)))) :=
        RunSim.set_responses b cfg hRS hRQ hRE
          (RunSim.set_responses b cfg hRS hRQ hRE h (n ++ ".cnt") (.text body))
          (n ++ ".snh") (respMeta (b m u hdrs (getRequestContent cfg sa n)))
      have hch_eq : checkSampleHeaders cfg
          ((sb.set (cfg.responses, n ++ ".cnt") (.text body)).set
            (cfg.responses, n ++ ".snh")
            (respMeta (b m u hdrs (getRequestContent cfg sa n)))) n
          (b m u hdrs (getRequestContent cfg sa n)).status
          (b m u hdrs (getRequestContent cfg sa n)).headers =
        checkSampleHeaders cfg
          ((sa.set (cfg.responses, n ++ ".cnt") (.text body)).set
            (cfg.responses, n ++ ".snh")
            (respMeta (b m u hdrs (getRequestContent cfg sa n)))) n
          (b m u hdrs (getRequestContent cfg sa n)).status
          (b m u hdrs (getRequestContent cfg sa n)).headers :=
        checkSampleHeaders_congr cfg n _ _ (hsim2.snh n)
      have hreqA : ∀ fn,
          ((sa.set (cfg.responses, n ++ ".cnt") (.text body)).set
            (cfg.responses, n ++ ".snh")
            (respMeta (b m u hdrs (getRequestContent cfg sa n))))
            (cfg.requests, fn) = sa (cfg.requests, fn) := fun fn => by
        rw [Store.set_ne _ _ _ _ (ne_of_dir _ _ _ (Ne.symm hRQ)),
          Store.set_ne _ _ _ _ (ne_of_dir _ _ _ (Ne.symm hRQ))]
      have hrnA :
          ((sa.set (cfg.responses, n ++ ".cnt") (.text body)).set
            (cfg.responses, n ++ ".snh")
            (respMeta (b m u hdrs (getRequestContent cfg sa n))))
            (cfg.responses, n ++ ".cnt") = some (.text body) := by
        rw [Store.set_ne _ _ _ _ (pair_ne_snd (cnt_ne_snh n n)),
          Store.set_self]
      have hrnB :
          ((sb.set (cfg.responses, n ++ ".cnt") (.text body)).set
            (cfg.responses, n ++ ".snh")
            (respMeta (b m u hdrs (getRequestContent cfg sa n))))
            (cfg.responses, n ++ ".cnt") = some (.text body) := by
        rw [Store.set_ne _ _ _ _ (pair_ne_snd (cnt_ne_snh n n)),
          Store.set_self]
      cases hch : checkSampleHeaders cfg
          ((sa.set (cfg.responses, n ++ ".cnt") (.text body)).set
            (cfg.responses, n ++ ".snh")
            (respMeta (b m u hdrs (getRequestContent cfg sa n)))) n
          (b m u hdrs (getRequestContent cfg sa n)).status
          (b m u hdrs (getRequestContent cfg sa n)).headers with
      | error e =>
        have ea : (runCase b cfg sa n).1 = some e ∧
            (runCase b cfg sa n).2.2 = [] ∧ (runCase b cfg sa n).2.1 =
              ((sa.set (cfg.responses, n ++ ".cnt") (.text body)).set
                (cfg.responses, n ++ ".snh")
                (respMeta (b m u hdrs (getRequestContent cfg sa n)))) := by
          simp only [runCase, hp, esa, hch]
          exact ⟨trivial, trivial, trivial⟩
        have eb : (runCase b cfg sb n).1 = some e ∧
            (runCase b cfg sb n).2.2 = [] ∧ (runCase b cfg sb n).2.1 =
              ((sb.set (cfg.responses, n ++ ".cnt") (.text body)).set
                (cfg.responses, n ++ ".snh")
                (respMeta (b m u hdrs (getRequestContent cfg sa n)))) := by
          simp only [runCase, hpb, esb, hch_eq, hch]
          exact ⟨trivial, trivial, trivial⟩
        rw [ea.1, eb.1, ea.2.1, eb.2.1, ea.2.2, eb.2.2]
        exact ⟨rfl, rfl, hsim2⟩
      | ok bv =>
        cases bv with
        | false =>
          have ea : (runCase b cfg sa n).1 = none ∧
              (runCase b cfg sa n).2.2 = [failMsg n] ∧
              (runCase b cfg sa n).2.1 =
                appendToFile
                  ((sa.set (cfg.responses, n ++ ".cnt") (.text body)).set
                    (cfg.responses, n ++ ".snh")
                    (respMeta (b m u hdrs (getRequestContent cfg sa n))))
                  (cfg.errors, "errors.txt") (failMsg n) := by
            simp only [runCase, hp, esa, hch, writeErr]
            exact ⟨trivial, trivial, trivial⟩
          have eb : (runCase b cfg sb n).1 = none ∧
              (runCase b cfg sb n).2.2 = [failMsg n] ∧
              (runCase b cfg sb n).2.1 =
                appendToFile
                  ((sb.set (cfg.responses, n ++ ".cnt") (.text body)).set
                    (cfg.responses, n ++ ".snh")
                    (respMeta (b m u hdrs (getRequestContent cfg sa n))))
                  (cfg.errors, "errors.txt") (failMsg n) := by
            simp only [runCase, hpb, esb, hch_eq, hch, writeErr]
            exact ⟨trivial, trivial, trivial⟩
          rw [ea.1, eb.1, ea.2.1, eb.2.1, ea.2.2, eb.2.2]
          exact ⟨rfl, rfl, RunSim.append_err b cfg hSE hQE hsim2 (failMsg n)⟩
        | true =>
          rcases hsim2.cnt n with hceq | ⟨hnA, c, hexpA, hsbc⟩
          · cases hk : ((sa.set (cfg.responses, n ++ ".cnt") (.text body)).set
                (cfg.responses, n ++ ".snh")
                (respMeta (b m u hdrs (getRequestContent cfg sa n))))
                (cfg.samples, n ++ ".cnt") with
            | none =>
              have hkb : ((sb.set (cfg.responses, n ++ ".cnt") (.text body)).set
                  (cfg.responses, n ++ ".snh")
                  (respMeta (b m u hdrs (getRequestContent cfg sa n))))
                  (cfg.samples, n ++ ".cnt") = none := by
                rw [hceq, hk]
              have ecsA : checkSampleContents cfg
                  ((sa.set (cfg.responses, n ++ ".cnt") (.text body)).set
                    (cfg.responses, n ++ ".snh")
                    (respMeta (b m u hdrs (getRequestContent cfg sa n)))) n
                    body =
                  .ok (((sa.set (cfg.responses, n ++ ".cnt") (.text body)).set
                    (cfg.responses, n ++ ".snh")
                    (respMeta (b m u hdrs (getRequestContent cfg sa n)))).set
                      (cfg.samples, n ++ ".cnt") (.text body), true) := by
                simp only [checkSampleContents, Store.pathExists, hk,
                  Option.isSome_none, Bool.not_false, if_true, saveToFile]
              have ecsB : checkSampleContents cfg
                  ((sb.set (cfg.responses, n ++ ".cnt") (.text body)).set
                    (cfg.responses, n ++ ".snh")
                    (respMeta (b m u hdrs (getRequestContent cfg sa n)))) n
                    body =
                  .ok (((sb.set (cfg.responses, n ++ ".cnt") (.text body)).set
                    (cfg.responses, n ++ ".snh")
                    (respMeta (b m u hdrs (getRequestContent cfg sa n)))).set
                      (cfg.samples, n ++ ".cnt") (.text body), true) := by
                simp only [checkSampleContents, Store.pathExists, hkb,
                  Option.isSome_none, Bool.not_false, if_true, saveToFile]
              have ea : (runCase b cfg sa n).1 = none ∧
                  (runCase b cfg sa n).2.2 = [okMsg n] ∧
                  (runCase b cfg sa n).2.1 =
                    ((sa.set (cfg.responses, n ++ ".cnt") (.text body)).set
                      (cfg.responses, n ++ ".snh")
                      (respMeta (b m u hdrs (getRequestContent cfg sa n)))).set
                        (cfg.samples, n ++ ".cnt") (.text body) := by
                simp only [runCase, hp, esa, hch, ecsA]
                exact ⟨trivial, trivial, trivial⟩
              have eb : (runCase b cfg sb n).1 = none ∧
                  (runCase b cfg sb n).2.2 = [okMsg n] ∧
                  (runCase b cfg sb n).2.1 =
                    ((sb.set (cfg.responses, n ++ ".cnt") (.text body)).set
                      (cfg.responses, n ++ ".snh")
                      (respMeta (b m u hdrs (getRequestContent cfg sa n)))).set
                        (cfg.samples, n ++ ".cnt") (.text body) := by
                simp only [runCase, hpb, esb, hch_eq, hch, ecsB]
                exact ⟨trivial, trivial, trivial⟩
              rw [ea.1, eb.1, ea.2.1, eb.2.1, ea.2.2, eb.2.2]
              exact ⟨rfl, rfl,
                RunSim.set_cnt_both b cfg hSQ hSE hsim2 n (.text body)⟩
            | some d =>
              have hkb : ((sb.set (cfg.responses, n ++ ".cnt") (.text body)).set
                  (cfg.responses, n ++ ".snh")
                  (respMeta (b m u hdrs (getRequestContent cfg sa n))))
                  (cfg.samples, n ++ ".cnt") = some d := by
                rw [hceq, hk]
              have ecsA : checkSampleContents cfg
                  ((sa.set (cfg.responses, n ++ ".cnt") (.text body)).set
                    (cfg.responses, n ++ ".snh")
                    (respMeta (b m u hdrs (getRequestContent cfg sa n)))) n
                    body =
                  .ok (((sa.set (cfg.responses, n ++ ".cnt") (.text body)).set
                    (cfg.responses, n ++ ".snh")
                    (respMeta (b m u hdrs (getRequestContent cfg sa n)))),
                      d.asText == body) := by
                simp only [checkSampleContents, Store.pathExists, hk,
                  Option.isSome_some, Bool.not_true, Bool.false_eq_true,
                  if_false, readFromFile, hrnA, Bind.bind, Except.bind,
                  FileData.asText]
              have ecsB : checkSampleContents cfg
                  ((sb.set (cfg.responses, n ++ ".cnt") (.text body)).set
                    (cfg.responses, n ++ ".snh")
                    (respMeta (b m u hdrs (getRequestContent cfg sa n)))) n
                    body =
                  .ok (((sb.set (cfg.responses, n ++ ".cnt") (.text body)).set
                    (cfg.responses, n ++ ".snh")
                    (respMeta (b m u hdrs (getRequestContent cfg sa n)))),
                      d.asText == body) := by
                simp only [checkSampleContents, Store.pathExists, hkb,
                  Option.isSome_some, Bool.not_true, Bool.false_eq_true,
                  if_false, readFromFile, hrnB, Bind.bind, Except.bind,
                  FileData.asText]
              cases hcmp : d.asText == body with
              | true =>
                rw [hcmp] at ecsA ecsB
                have ea : (runCase b cfg sa n).1 = none ∧
                    (runCase b cfg sa n).2.2 = [okMsg n] ∧
                    (runCase b cfg sa n).2.1 =
                      ((sa.set (cfg.responses, n ++ ".cnt") (.text body)).set
                        (cfg.responses, n ++ ".snh")
                        (respMeta (b m u hdrs (getRequestContent cfg sa n)))) := by
                  simp only [runCase, hp, esa, hch, ecsA]
                  exact ⟨trivial, trivial, trivial⟩
                have eb : (runCase b cfg sb n).1 = none ∧
                    (runCase b cfg sb n).2.2 = [okMsg n] ∧
                    (runCase b cfg sb n).2.1 =
                      ((sb.set (cfg.responses, n ++ ".cnt") (.text body)).set
                        (cfg.responses, n ++ ".snh")
                        (respMeta (b m u hdrs (getRequestContent cfg sa n)))) := by
                  simp only [runCase, hpb, esb, hch_eq, hch, ecsB]
                  exact ⟨trivial, trivial, trivial⟩
                rw [ea.1, eb.1, ea.2.1, eb.2.1, ea.2.2, eb.2.2]
                exact ⟨rfl, rfl, hsim2⟩
              | false =>
                rw [hcmp] at ecsA ecsB
                have ea : (runCase b cfg sa n).1 = none ∧
                    (runCase b cfg sa n).2.2 = [failMsg n] ∧
                    (runCase b cfg sa n).2.1 =
                      appendToFile
                        ((sa.set (cfg.responses, n ++ ".cnt") (.text body)).set
                          (cfg.responses, n ++ ".snh")
                          (respMeta (b m u hdrs (getRequestContent cfg sa n))))
                        (cfg.errors, "errors.txt") (failMsg n) := by
                  simp only [runCase, hp, esa, hch, ecsA, writeErr]
                  exact ⟨trivial, trivial, trivial⟩
                have eb : (runCase b cfg sb n).1 = none ∧
                    (runCase b cfg sb n).2.2 = [failMsg n] ∧
                    (runCase b cfg sb n).2.1 =
                      appendToFile
                        ((sb.set (cfg.responses, n ++ ".cnt") (.text body)).set
                          (cfg.responses, n ++ ".snh")
                          (respMeta (b m u hdrs (getRequestContent cfg sa n))))
                        (cfg.errors, "errors.txt") (failMsg n) := by
                  simp only [runCase, hpb, esb, hch_eq, hch, ecsB, writeErr]
                  exact ⟨trivial, trivial, trivial⟩
                rw [ea.1, eb.1, ea.2.1, eb.2.1, ea.2.2, eb.2.2]
                exact ⟨rfl, rfl,
                  RunSim.append_err b cfg hSE hQE hsim2 (failMsg n)⟩
          · -- first run bootstraps, second run compares against the
            -- sample the first run wrote
            have hexp2 : expectedBody b cfg
                ((sa.set (cfg.responses, n ++ ".cnt") (.text body)).set
                  (cfg.responses, n ++ ".snh")
                  (respMeta (b m u hdrs (getRequestContent cfg sa n)))) n =
                some body := by
              unfold expectedBody
              rw [parseParam_congr cfg hreqA n, hp,
                getRequestContent_congr cfg hreqA n]
              simp only
              exact hct
            have hcb : c = body :=
              Option.some.inj (hexpA.symm.trans hexp2)
            rw [hcb] at hsbc
            have ecsA : checkSampleContents cfg
                ((sa.set (cfg.responses, n ++ ".cnt") (.text body)).set
                  (cfg.responses, n ++ ".snh")
                  (respMeta (b m u hdrs (getRequestContent cfg sa n)))) n
                  body =
                .ok (((sa.set (cfg.responses, n ++ ".cnt") (.text body)).set
                  (cfg.responses, n ++ ".snh")
                  (respMeta (b m u hdrs (getRequestContent cfg sa n)))).set
                    (cfg.samples, n ++ ".cnt") (.text body), true) := by
              simp only [checkSampleContents, Store.pathExists, hnA,
                Option.isSome_none, Bool.not_false, if_true, saveToFile]
            have ecsB : checkSampleContents cfg
                ((sb.set (cfg.responses, n ++ ".cnt") (.text body)).set
                  (cfg.responses, n ++ ".snh")
                  (respMeta (b m u hdrs (getRequestContent cfg sa n)))) n
                  body =
                .ok (((sb.set (cfg.responses, n ++ ".cnt") (.text body)).set
                  (cfg.responses, n ++ ".snh")
                  (respMeta (b m u hdrs (getRequestContent cfg sa n)))),
                    true) := by
              simp only [checkSampleContents, Store.pathExists, hsbc,
                Option.isSome_some, Bool.not_true, Bool.false_eq_true,
                if_false, readFromFile, hrnB, Bind.bind, Except.bind,
                FileData.asText, beq_self_eq_true]
            have ea : (runCase b cfg sa n).1 = none ∧
                (runCase b cfg sa n).2.2 = [okMsg n] ∧
                (runCase b cfg sa n).2.1 =
                  ((sa.set (cfg.responses, n ++ ".cnt") (.text body)).set
                    (cfg.responses, n ++ ".snh")
                    (respMeta (b m u hdrs (getRequestContent cfg sa n)))).set
                      (cfg.samples, n ++ ".cnt") (.text body) := by
              simp only [runCase, hp, esa, hch, ecsA]
              exact ⟨trivial, trivial, trivial⟩
            have eb : (runCase b cfg sb n).1 = none ∧
                (runCase b cfg sb n).2.2 = [okMsg n] ∧
                (runCase b cfg sb n).2.1 =
                  ((sb.set (cfg.responses, n ++ ".cnt") (.text body)).set
                    (cfg.responses, n ++ ".snh")
                    (respMeta (b m u hdrs (getRequestContent cfg sa n)))) := by
              simp only [runCase, hpb, esb, hch_eq, hch, ecsB]
              exact ⟨trivial, trivial, trivial⟩
            rw [ea.1, eb.1, ea.2.1, eb.2.1, ea.2.2, eb.2.2]
            exact ⟨rfl, rfl,
              RunSim.bootstrap_left b cfg hSQ hSE hsim2 n body hsbc⟩

/-- The whole case sequence behaves identically in the two runs. -/
theorem runCases_bisim (b : Backend) (cfg : Config) (hd : DistinctDirs cfg) :
    ∀ (ns : List String) (sa sb : Store), RunSim b cfg sa sb →
    (runCases b cfg ns sb).1 = (runCases b cfg ns sa).1 ∧
    (runCases b cfg ns sb).2.2 = (runCases b cfg ns sa).2.2 ∧
    RunSim b cfg (runCases b cfg ns sa).2.1 (runCases b cfg ns sb).2.1 := by
  intro ns
  induction ns with
  | nil =>
    intro sa sb h
    exact ⟨rfl, rfl, h⟩
  | cons n t ih =>
    intro sa sb h
    obtain ⟨h1, h2, h3⟩ := runCase_bisim b cfg hd n sa sb h
    simp only [runCases]
    cases hca : runCase b cfg sa n with
    | mk e1 ra =>
      obtain ⟨sa2, outa⟩ := ra
      cases hcb : runCase b cfg sb n with
      | mk e2 rb =>
        obtain ⟨sb2, outb⟩ := rb
        rw [hca, hcb] at h1 h2 h3
        simp only at h1 h2 h3
        subst h1
        cases e2 with
        | some e =>
          simp only
          exact ⟨trivial, h2, h3⟩
        | none =>
          obtain ⟨g1, g2, g3⟩ := ih sa2 sb2 h3
          simp only
          exact ⟨g1, by rw [h2, g2], g3⟩

/-- Claim C9, counterexample: with a stable backend and a pre-existing
body sample differing from the backend's body, BOTH runs fail the case
and the error log is present and non-empty after each run — refuting
"the error log is empty/absent after each of the two runs". -/
theorem c9_counterexample :
    (run exBackend noFaults exCfg ["t.prm"] stBodyMismatch).2.1
      (errPath exCfg) = some (.text (failMsg "t")) ∧
    (run exBackend noFaults exCfg ["t.prm"]
      (run exBackend noFaults exCfg ["t.prm"] stBodyMismatch).2.1).2.1
      (errPath exCfg) = some (.text (failMsg "t")) :=
  ⟨rfl, rfl⟩

/-- Claim C9 (amended): with a stable backend, no sample edits between
runs, distinct directories and an unfaulted error-log deletion, running
the orchestrator twice yields identical console output on both runs, the
same abort behaviour, and identical error-log contents after each run
(the log is absent iff the run had no failures, not unconditionally). -/
theorem c9_run_twice_amended (b : Backend)
    (faults : FPath → Option OSErrorKind) (cfg : Config)
    (listing : List String) (st : Store)
    (hd : DistinctDirs cfg) (hf : faults (errPath cfg) = none) :
    (run b faults cfg listing ((run b faults cfg listing st).2.1)).1 =
      (run b faults cfg listing st).1 ∧
    (run b faults cfg listing ((run b faults cfg listing st).2.1)).2.2 =
      (run b faults cfg listing st).2.2 ∧
    (run b faults cfg listing ((run b faults cfg listing st).2.1)).2.1
        (errPath cfg) =
      (run b faults cfg listing st).2.1 (errPath cfg) := by
  have hdel := runCases_delta b cfg hd (getNames listing)
    (removeErrors faults cfg st)
  have hsim0 : RunSim b cfg (removeErrors faults cfg st)
      (removeErrors faults cfg
        ((runCases b cfg (getNames listing)
          (removeErrors faults cfg st)).2.1)) := by
    refine ⟨fun fn => ?_, fun fn => ?_, fun fn => ?_, ?_⟩
    · rw [removeErrors_ne _ _ _ _ (ne_of_dir _ _ _ hd.2.2.2.2.2)]
      exact hdel.1 fn
    · rw [removeErrors_ne _ _ _ _ (ne_of_dir _ _ _ hd.2.2.2.2.1)]
      exact hdel.2.1 fn
    · rw [removeErrors_ne _ _ _ _ (ne_of_dir _ _ _ hd.2.2.2.2.1)]
      exact hdel.2.2 fn
    · rw [removeErrors_log_none _ _ _ hf, removeErrors_log_none _ _ _ hf]
  have hbis := runCases_bisim b cfg hd (getNames listing)
    (removeErrors faults cfg st)
    (removeErrors faults cfg
      ((runCases b cfg (getNames listing) (removeErrors faults cfg st)).2.1))
    hsim0
  exact ⟨hbis.1, hbis.2.1, hbis.2.2.log⟩

/-- Witness for C9's amended claim on the fresh bootstrap case `t`. -/
theorem c9_witness :
    (run exBackend noFaults exCfg ["t.prm"]
        ((run exBackend noFaults exCfg ["t.prm"] stFresh).2.1)).2.2 =
      (run exBackend noFaults exCfg ["t.prm"] stFresh).2.2 :=
  (c9_run_twice_amended exBackend noFaults exCfg ["t.prm"] stFresh
    ⟨by decide, by decide, by decide, by decide, by decide, by decide⟩
    rfl).2.1

/-- Witness for C2: a sample demanding status 200 and header `A: x`
against an actual 200 response carrying `A: x` plus an extra header. -/
theorem c2_witness :
    checkSampleHeaders exCfg
      (fun p => if p = ("sam", "t.snh")
        then some (.json (snhSample (some 200) (some [("A", "x")])))
        else none)
      "t" 200 [("A", "x"), ("B", "y")] = .ok true :=
  (c2_header_check_iff exCfg
      (fun p => if p = ("sam", "t.snh")
        then some (.json (snhSample (some 200) (some [("A", "x")])))
        else none)
      "t" 200 [("A", "x"), ("B", "y")] (some 200) (some [("A", "x")])
      rfl (by intro l hl; cases hl; decide)).mpr
    ⟨fun n hn => by cases hn; rfl,
     fun l hl => by cases hl; intro p hp; simp at hp; cases hp; rfl⟩

end Restful
